import Mathlib

/-!
Shallow embedding of the go-nebulas block-engine core (core/block.go) and the
p2p wire-protocol core (net/p2p/net_service.go), together with proofs of the
specification's claims about them.

Bytes are modelled as lists of naturals (a well-formed byte is `< 256`);
machine integers are `Nat`/`Int` with explicit reduction modulo `2^w` where
the Go code can overflow.  The SHA3-256 digest and the Merkle-trie root-hash
computations are not part of the visible source; they enter the model as
function parameters (`H`, `Racc`, ...), so every theorem about them holds for
the real digest functions in particular.
-/

/-- A byte sequence: each element is intended to be `< 256`. -/
abbrev Bytes := List Nat

/-- Modelled from the spec: the byteutils big-endian fixed-width integer
encoding ("big-endian for u32/u64/i64", §3/§6).  `beBytes w n` is the
big-endian `w`-byte encoding of `n % 256^w`. -/
def beBytes (w n : Nat) : Bytes :=
  (List.range w).map (fun i => n / 256 ^ (w - 1 - i) % 256)

/-- Modelled from the spec: byteutils `FromUint32`, big-endian 4 bytes. -/
def FromUint32 (n : Nat) : Bytes := beBytes 4 n

/-- Modelled from the spec: byteutils `FromUint64`, big-endian 8 bytes. -/
def FromUint64 (n : Nat) : Bytes := beBytes 8 n

/-- Modelled from the spec: byteutils `FromInt64`, big-endian 8 bytes of the
two's-complement representation. -/
def FromInt64 (i : Int) : Bytes := beBytes 8 ((i % (2 ^ 64 : Int)).toNat)

/-- Modelled from the spec: byteutils `Uint32`/`Uint64`, big-endian decoding
of a byte sequence. -/
def UintBE (l : Bytes) : Nat := l.foldl (fun a x => a * 256 + x) 0

/-- Modelled from the spec: byteutils `Int64`, big-endian two's-complement
decoding of 8 bytes. -/
def Int64BE (l : Bytes) : Int :=
  if UintBE l < 2 ^ 63 then (UintBE l : Int) else (UintBE l : Int) - 2 ^ 64

/-! ## CRC32 (IEEE 802.3 polynomial), as in Go `hash/crc32.ChecksumIEEE` -/

/-- One bit-step of the reflected CRC32 computation: shift right and, if the
low bit was set, xor with the reversed IEEE polynomial `0xEDB88320`. -/
def crc32Round (c : Nat) : Nat :=
  if c % 2 = 1 then (c / 2) ^^^ 0xEDB88320 else c / 2

/-- `n` iterations of `crc32Round`. -/
def crc32Rounds : Nat → Nat → Nat
  | 0, c => c
  | n + 1, c => crc32Rounds n (crc32Round c)

/-- Process one byte: xor it into the low bits of the state, then do 8
bit-steps. -/
def crc32Byte (c b : Nat) : Nat := crc32Rounds 8 (c ^^^ (b % 256))

/-- Run the CRC32 state machine over a byte list. -/
def crc32Update (c : Nat) (l : Bytes) : Nat := l.foldl crc32Byte c

/-- Go `crc32.ChecksumIEEE`: initial state `0xFFFFFFFF`, final complement. -/
def ChecksumIEEE (l : Bytes) : Nat := crc32Update 0xFFFFFFFF l ^^^ 0xFFFFFFFF

/-! ## Association lists (the key-value view of the backing tries/maps) -/

/-- Lookup in an association list. -/
def assocGet [DecidableEq κ] : List (κ × α) → κ → Option α
  | [], _ => none
  | (k1, v) :: r, k => if k1 = k then some v else assocGet r k

/-- Insert-or-replace in an association list, preserving insertion order. -/
def assocPut [DecidableEq κ] : List (κ × α) → κ → α → List (κ × α)
  | [], k, v => [(k, v)]
  | (k1, v1) :: r, k, v =>
    if k1 = k then (k, v) :: r else (k1, v1) :: assocPut r k v

/-- Remove a key from an association list. -/
def assocDelete [DecidableEq κ] : List (κ × α) → κ → List (κ × α)
  | [], _ => []
  | (k1, v1) :: r, k =>
    if k1 = k then assocDelete r k else (k1, v1) :: assocDelete r k

/-! ## Overlay trie adapter

Modelled from the spec (§4.1): a Merkle-Patricia-trie wrapper with the batch
triplet `begin_batch`, `commit`, `rollback`.  Between `begin_batch` and
`commit` mutations are staged in `data`; `rollback` discards them by
restoring the snapshot taken at `begin_batch`; reads during a batch see the
staged state. -/
structure BatchTrie (α : Type) where
  data : List (Bytes × α)
  snapshot : Option (List (Bytes × α))
deriving DecidableEq

/-- Take the batch snapshot. -/
def BatchTrie.BeginBatch (t : BatchTrie α) : BatchTrie α :=
  { t with snapshot := some t.data }

/-- Keep the staged mutations and drop the snapshot. -/
def BatchTrie.Commit (t : BatchTrie α) : BatchTrie α :=
  { t with snapshot := none }

/-- Discard the staged mutations, restoring the snapshot. -/
def BatchTrie.RollBack (t : BatchTrie α) : BatchTrie α :=
  { data := t.snapshot.getD t.data, snapshot := none }

/-- Staged put. -/
def BatchTrie.Put (t : BatchTrie α) (k : Bytes) (v : α) : BatchTrie α :=
  { t with data := assocPut t.data k v }

/-- Staged get. -/
def BatchTrie.Get (t : BatchTrie α) (k : Bytes) : Option α :=
  assocGet t.data k

/-- A Merkle proof exists exactly when the key is present. -/
def BatchTrie.Prove (t : BatchTrie α) (k : Bytes) : Option Unit :=
  if (assocGet t.data k).isSome then some () else none

/-- Modelled from the spec (§4.2): `clone()` produces an independent overlay
with the same contents. -/
def BatchTrie.Clone (t : BatchTrie α) : BatchTrie α := t

/-! ## Accounts (spec §4.2) -/

/-- Modelled from the spec: a user account carries a Uint128 `balance` and a
u64 `nonce`. -/
structure Account where
  balance : Nat
  nonce : Nat
deriving DecidableEq

/-- Modelled from the spec: `get_or_create_user_account(addr)`; an absent
account reads as zero balance and zero nonce. -/
def BatchTrie.GetOrCreateUserAccount (t : BatchTrie Account) (addr : Bytes) :
    Account :=
  (assocGet t.data addr).getD ⟨0, 0⟩

/-! ## DPoS context: six overlay tries (spec §3) -/

/-- Modelled from the spec: the DPoS context owns six overlay tries
(dynasty, next-dynasty, delegate, vote, candidate, mint-count). -/
structure DposContext where
  dynastyTrie : BatchTrie Bytes
  nextDynastyTrie : BatchTrie Bytes
  delegateTrie : BatchTrie Bytes
  voteTrie : BatchTrie Bytes
  candidateTrie : BatchTrie Bytes
  mintCntTrie : BatchTrie Bytes
deriving DecidableEq

/-- Begin a batch on all six DPoS tries. -/
def DposContext.BeginBatch (d : DposContext) : DposContext :=
  ⟨d.dynastyTrie.BeginBatch, d.nextDynastyTrie.BeginBatch,
   d.delegateTrie.BeginBatch, d.voteTrie.BeginBatch,
   d.candidateTrie.BeginBatch, d.mintCntTrie.BeginBatch⟩

/-- Commit all six DPoS tries. -/
def DposContext.Commit (d : DposContext) : DposContext :=
  ⟨d.dynastyTrie.Commit, d.nextDynastyTrie.Commit, d.delegateTrie.Commit,
   d.voteTrie.Commit, d.candidateTrie.Commit, d.mintCntTrie.Commit⟩

/-- Roll back all six DPoS tries. -/
def DposContext.RollBack (d : DposContext) : DposContext :=
  ⟨d.dynastyTrie.RollBack, d.nextDynastyTrie.RollBack,
   d.delegateTrie.RollBack, d.voteTrie.RollBack, d.candidateTrie.RollBack,
   d.mintCntTrie.RollBack⟩

/-- The protobuf `corepb.DposContext`: the six serialised sub-roots. -/
structure PbDposContext where
  DynastyRoot : Bytes
  NextDynastyRoot : Bytes
  DelegateRoot : Bytes
  VoteRoot : Bytes
  CandidateRoot : Bytes
  MintCntRoot : Bytes
deriving DecidableEq

/-- Serialise the six current sub-roots; `Rb` is the trie root-hash
function. -/
def DposContext.ToProto (Rb : List (Bytes × Bytes) → Bytes) (d : DposContext) :
    PbDposContext :=
  ⟨Rb d.dynastyTrie.data, Rb d.nextDynastyTrie.data, Rb d.delegateTrie.data,
   Rb d.voteTrie.data, Rb d.candidateTrie.data, Rb d.mintCntTrie.data⟩

/-- Modelled from the spec: `DposContext.RootHash`, the SHA3-256 digest over
the six current sub-roots (in the same order as `DposContextHash`). -/
def DposContext.RootHash (H : Bytes → Bytes)
    (Rb : List (Bytes × Bytes) → Bytes) (d : DposContext) : Bytes :=
  H (Rb d.dynastyTrie.data ++ Rb d.nextDynastyTrie.data ++
     Rb d.delegateTrie.data ++ Rb d.voteTrie.data ++
     Rb d.candidateTrie.data ++ Rb d.mintCntTrie.data)

/-! ## Events and transactions -/

/-- An event: topic plus JSON data string. -/
structure Event where
  Topic : String
  Data : String
deriving DecidableEq

/-- The transaction payload variants (the `Type()` tag switched on in
`triggerEvent`). -/
inductive TxPayloadType
  | binary
  | deploy
  | call
  | delegate
  | candidate
deriving DecidableEq

/-- The slice of a `core.Transaction` the block engine inspects: its hash,
sender address, sender nonce and payload-type tag.  Everything else is only
touched by the opaque VM executor. -/
structure Tx where
  hash : Bytes
  fromAddr : Bytes
  nonce : Nat
  payloadType : TxPayloadType
deriving DecidableEq

/-- Subscriber topic constants (spec §6). -/
def TopicSendTransaction : String := "chain.sendTransaction"

/-- Subscriber topic for contract deployment. -/
def TopicDeploySmartContract : String := "chain.deployContract"

/-- Subscriber topic for contract calls. -/
def TopicCallSmartContract : String := "chain.callContract"

/-- Subscriber topic for delegate transactions. -/
def TopicDelegate : String := "chain.delegate"

/-- Subscriber topic for candidate transactions. -/
def TopicCandidate : String := "chain.candidate"

/-- Subscriber topic emitted for the block itself on commit. -/
def TopicLinkBlock : String := "chain.linkBlock"

/-- `BlockReward = 48 * 10^16` (3% annual inflation, one block per 5s). -/
def BlockReward : Nat := 48 * 10 ^ 16

/-! ## Block header and block -/

/-- The block header (core/block.go `BlockHeader`). -/
structure BlockHeader where
  hash : Bytes
  parentHash : Bytes
  stateRoot : Bytes
  txsRoot : Bytes
  eventsRoot : Bytes
  dposContext : PbDposContext
  coinbase : Bytes
  nonce : Nat
  timestamp : Int
  chainID : Nat
  alg : Nat
  sign : Bytes
deriving DecidableEq

/-- The block (core/block.go `Block`): header, ordered transactions, and the
runtime-only fields the claims touch.  The shared transaction pool is carried
as a list; storage, the parent back-pointer and the event emitter are not
observable by any claim (the emitter's publishes are returned by
`triggerEvent` instead). -/
structure Block where
  header : BlockHeader
  transactions : List Tx
  sealed : Bool
  height : Nat
  accState : BatchTrie Account
  txsTrie : BatchTrie Tx
  eventsTrie : BatchTrie Event
  dposContext : DposContext
  txPool : List Tx
  miner : Bytes
deriving DecidableEq

/-- `Block.Hash`. -/
def Block.Hash (b : Block) : Bytes := b.header.hash

/-- `Block.ParentHash`. -/
def Block.ParentHash (b : Block) : Bytes := b.header.parentHash

/-- `Block.StateRoot`. -/
def Block.StateRoot (b : Block) : Bytes := b.header.stateRoot

/-- `Block.TxsRoot`. -/
def Block.TxsRoot (b : Block) : Bytes := b.header.txsRoot

/-- `Block.EventsRoot`. -/
def Block.EventsRoot (b : Block) : Bytes := b.header.eventsRoot

/-- `Block.Timestamp`. -/
def Block.Timestamp (b : Block) : Int := b.header.timestamp

/-- `Block.Nonce`. -/
def Block.Nonce (b : Block) : Nat := b.header.nonce

/-- `Block.Height`. -/
def Block.Height (b : Block) : Nat := b.height

/-- `Block.Sealed`. -/
def Block.Sealed (b : Block) : Bool := b.sealed

/-- `Block.Miner`. -/
def Block.Miner (b : Block) : Bytes := b.miner

/-- `Block.SetMiner`: sets the miner; note the absence of a sealed guard. -/
def Block.SetMiner (b : Block) (m : Bytes) : Block := { b with miner := m }

/-- `Block.SetNonce`: a no-op (apart from a diagnostic log) on a sealed
block. -/
def Block.SetNonce (b : Block) (n : Nat) : Block :=
  if b.sealed then b else { b with header := { b.header with nonce := n } }

/-- `Block.SetTimestamp`: a no-op (apart from a diagnostic log) on a sealed
block. -/
def Block.SetTimestamp (b : Block) (t : Int) : Block :=
  if b.sealed then b else { b with header := { b.header with timestamp := t } }

/-- `Block.begin`: begin a batch on all four overlays. -/
def Block.begin (b : Block) : Block :=
  { b with accState := b.accState.BeginBatch, txsTrie := b.txsTrie.BeginBatch,
           eventsTrie := b.eventsTrie.BeginBatch,
           dposContext := b.dposContext.BeginBatch }

/-- `Block.commit`: commit all four overlays. -/
def Block.commit (b : Block) : Block :=
  { b with accState := b.accState.Commit, txsTrie := b.txsTrie.Commit,
           eventsTrie := b.eventsTrie.Commit,
           dposContext := b.dposContext.Commit }

/-- `Block.rollback`: roll back all four overlays. -/
def Block.rollback (b : Block) : Block :=
  { b with accState := b.accState.RollBack, txsTrie := b.txsTrie.RollBack,
           eventsTrie := b.eventsTrie.RollBack,
           dposContext := b.dposContext.RollBack }

/-! ## Errors of the block engine -/

/-- The error values of the block-engine core (core/errors). -/
inductive CoreErr
  | duplicatedTransaction
  | smallTransactionNonce
  | largeTransactionNonce
  | doubleSealBlock
  | linkToWrongParentBlock
  | generateNextDynastyContext
  | invalidBlockStateRoot
  | invalidBlockTxsRoot
  | invalidBlockEventsRoot
  | invalidBlockDposContextRoot
  | payloadExecutionFailed
deriving DecidableEq

/-! ## The opaque VM executor

The spec (§1) treats the smart-contract VM as an opaque executor.  When a
transaction's `VerifyExecution` runs, it may read and mutate the *staged*
contents of the four overlays (balances, contract storage, recorded events)
but it never touches the batch snapshots — all its writes go through the
overlay `put`.  `CoreData` is exactly that mutable view, and a `VmExec` is
any executor over it, which may also report an error after partial
mutation. -/
structure CoreData where
  acc : List (Bytes × Account)
  txs : List (Bytes × Tx)
  events : List (Bytes × Event)
  dynasty : List (Bytes × Bytes)
  nextDynasty : List (Bytes × Bytes)
  delegate : List (Bytes × Bytes)
  vote : List (Bytes × Bytes)
  candidate : List (Bytes × Bytes)
  mintCnt : List (Bytes × Bytes)
deriving DecidableEq

/-- An arbitrary VM executor: mutates the staged overlay data and may fail
(after partial mutation). -/
def VmExec : Type :=
  Tx → CoreData → CoreData × Option CoreErr

/-- The staged (current) contents of a block's four overlays. -/
def Block.core (b : Block) : CoreData :=
  ⟨b.accState.data, b.txsTrie.data, b.eventsTrie.data,
   b.dposContext.dynastyTrie.data, b.dposContext.nextDynastyTrie.data,
   b.dposContext.delegateTrie.data, b.dposContext.voteTrie.data,
   b.dposContext.candidateTrie.data, b.dposContext.mintCntTrie.data⟩

/-- Write back a mutated `CoreData` into the block's overlays, keeping every
batch snapshot (the VM cannot touch those). -/
def Block.withCore (b : Block) (c : CoreData) : Block :=
  { b with
    accState := { b.accState with data := c.acc },
    txsTrie := { b.txsTrie with data := c.txs },
    eventsTrie := { b.eventsTrie with data := c.events },
    dposContext :=
      ⟨{ b.dposContext.dynastyTrie with data := c.dynasty },
       { b.dposContext.nextDynastyTrie with data := c.nextDynasty },
       { b.dposContext.delegateTrie with data := c.delegate },
       { b.dposContext.voteTrie with data := c.vote },
       { b.dposContext.candidateTrie with data := c.candidate },
       { b.dposContext.mintCntTrie with data := c.mintCnt }⟩ }

/-! ## Transaction admission (core/block.go) -/

/-- `Block.checkTransaction`: duplication check against the txs trie, then
the nonce window check against the sender account (u64 arithmetic). -/
def Block.checkTransaction (b : Block) (tx : Tx) : Bool × Option CoreErr :=
  if (b.txsTrie.Prove tx.hash).isSome then
    (false, some .duplicatedTransaction)
  else
    let fromAcc := b.accState.GetOrCreateUserAccount tx.fromAddr
    if tx.nonce < (fromAcc.nonce + 1) % 2 ^ 64 then
      (false, some .smallTransactionNonce)
    else if tx.nonce > (fromAcc.nonce + 1) % 2 ^ 64 then
      (true, some .largeTransactionNonce)
    else (false, none)

/-- `Block.acceptTransaction`: record the serialised transaction in the txs
trie under its hash and increment the sender nonce (u64). -/
def Block.acceptTransaction (b : Block) (tx : Tx) : Block :=
  let b1 := { b with txsTrie := b.txsTrie.Put tx.hash tx }
  let fromAcc := b1.accState.GetOrCreateUserAccount tx.fromAddr
  let fromAcc2 := { fromAcc with nonce := (fromAcc.nonce + 1) % 2 ^ 64 }
  { b1 with accState := b1.accState.Put tx.fromAddr fromAcc2 }

/-- The tail of `Block.executeTransaction` once `checkTransaction` passed:
run the VM executor (`tx.VerifyExecution(block)`), then on success accept the
transaction. -/
def Block.runVM (vm : VmExec) (b : Block) (tx : Tx) :
    Bool × Option CoreErr × Block :=
  match vm tx b.core with
  | (c, some e) => (false, some e, b.withCore c)
  | (c, none) => (false, none, (b.withCore c).acceptTransaction tx)

/-- `Block.executeTransaction`: admission check, then VM execution and
acceptance. -/
def Block.executeTransaction (vm : VmExec) (b : Block) (tx : Tx) :
    Bool × Option CoreErr × Block :=
  match b.checkTransaction tx with
  | (giveback, some e) => (giveback, some e, b)
  | (_, none) => b.runVM vm tx

/-- `Block.rewardCoinbase`: credit `BlockReward` to the coinbase balance
(Uint128). -/
def Block.rewardCoinbase (b : Block) : Block :=
  let coinbaseAcc := b.accState.GetOrCreateUserAccount b.header.coinbase
  let coinbaseAcc2 :=
    { coinbaseAcc with balance := (coinbaseAcc.balance + BlockReward) % 2 ^ 128 }
  { b with accState := b.accState.Put b.header.coinbase coinbaseAcc2 }

/-! ## Collecting transactions (core/block.go `CollectTransactions`) -/

/-- The body of the `CollectTransactions` loop for one popped transaction:
`begin()`, execute, then `commit()` and append on success or `rollback()` on
error.  Returns the new block, the giveback flag and the error. -/
def Block.collectStep (vm : VmExec) (b : Block) (tx : Tx) :
    Block × Bool × Option CoreErr :=
  match Block.executeTransaction vm b.begin tx with
  | (giveback, none, b2) =>
    let b3 := b2.commit
    ({ b3 with transactions := b3.transactions ++ [tx] }, giveback, none)
  | (giveback, some e, b2) => (b2.rollback, giveback, some e)

/-- The `CollectTransactions` loop over the popped pool: returns the block,
the remaining pool and the accumulated giveback list. -/
def Block.collectLoop (vm : VmExec) :
    Block → List Tx → Nat → List Tx → Block × List Tx × List Tx
  | b, [], _, givebacks => (b, [], givebacks)
  | b, tx :: rest, n, givebacks =>
    if n = 0 then (b, tx :: rest, givebacks)
    else
      match Block.collectStep vm b tx with
      | (b2, giveback, err) =>
        let givebacks2 := if giveback then givebacks ++ [tx] else givebacks
        match err with
        | none => Block.collectLoop vm b2 rest (n - 1) givebacks2
        | some _ => Block.collectLoop vm b2 rest n givebacks2

/-- `Block.CollectTransactions(n)`: no-op on a sealed block; otherwise run
the loop over the pool and push the givebacks back at the end. -/
def Block.CollectTransactions (vm : VmExec) (b : Block) (n : Nat) : Block :=
  if b.sealed then b
  else
    match Block.collectLoop vm { b with txPool := [] } b.txPool n [] with
    | (b2, rest, givebacks) => { b2 with txPool := rest ++ givebacks }

/-! ## Hashing (core/block.go `HashBlock`, `DposContextHash`)

The SHA3-256 hasher accumulates the bytes of successive `Write` calls;
`Sum(nil)` applies the digest function `H` to the accumulated stream. -/

/-- One `hasher.Write` call: append the bytes to the accumulated stream. -/
def HasherWrite (h d : Bytes) : Bytes := h ++ d

/-- `Block.DposContextHash`: SHA3-256 over the six serialised sub-roots of
the header's DPoS context, in declaration order. -/
def Block.DposContextHash (H : Bytes → Bytes) (b : Block) : Bytes :=
  let d := b.header.dposContext
  H (HasherWrite (HasherWrite (HasherWrite (HasherWrite (HasherWrite
      (HasherWrite [] d.DynastyRoot) d.NextDynastyRoot) d.DelegateRoot)
      d.VoteRoot) d.CandidateRoot) d.MintCntRoot)

/-- `HashBlock`: SHA3-256 over parent hash, the three roots, the DPoS
context hash, the fixed-width-encoded nonce/coinbase/timestamp/chain-id and
every transaction hash. -/
def HashBlock (H : Bytes → Bytes) (b : Block) : Bytes :=
  let h1 := HasherWrite [] b.ParentHash
  let h2 := HasherWrite h1 b.StateRoot
  let h3 := HasherWrite h2 b.TxsRoot
  let h4 := HasherWrite h3 b.EventsRoot
  let h5 := HasherWrite h4 (b.DposContextHash H)
  let h6 := HasherWrite h5 (FromUint64 b.header.nonce)
  let h7 := HasherWrite h6 b.header.coinbase
  let h8 := HasherWrite h7 (FromInt64 b.header.timestamp)
  let h9 := HasherWrite h8 (FromUint32 b.header.chainID)
  H (b.transactions.foldl (fun h tx => HasherWrite h tx.hash) h9)

/-- The spec's digest formula (§3): `H(parent_hash ‖ state_root ‖ txs_root ‖
events_root ‖ dpos_context_hash ‖ nonce ‖ coinbase ‖ timestamp ‖ chain_id ‖
tx_hash_1 ‖ … ‖ tx_hash_n)` with big-endian fixed-width encodings, where
`dpos_context_hash` hashes the six sub-root concatenation. -/
def specDposContextHash (H : Bytes → Bytes) (b : Block) : Bytes :=
  H (b.header.dposContext.DynastyRoot ++ b.header.dposContext.NextDynastyRoot
     ++ b.header.dposContext.DelegateRoot ++ b.header.dposContext.VoteRoot
     ++ b.header.dposContext.CandidateRoot ++ b.header.dposContext.MintCntRoot)

/-- The spec's block digest (§3), written as one concatenation. -/
def specBlockDigest (H : Bytes → Bytes) (b : Block) : Bytes :=
  H (b.header.parentHash ++ b.header.stateRoot ++ b.header.txsRoot ++
     b.header.eventsRoot ++ specDposContextHash H b ++
     beBytes 8 b.header.nonce ++ b.header.coinbase ++
     beBytes 8 ((b.header.timestamp % (2 ^ 64 : Int)).toNat) ++
     beBytes 4 b.header.chainID ++ (b.transactions.map Tx.hash).flatten)

/-! ## Sealing (core/block.go `Seal`, `recordMintCnt`) -/

/-- `Block.recordMintCnt`: under key `(timestamp / DynastyInterval ‖ miner)`
increment the existing mint count or initialise it to 1.  (The only error
path in the source is a storage read failure, which cannot arise in the
embedding.) -/
def Block.recordMintCnt (dynastyInterval : Int) (b : Block) : Block :=
  let key := FromInt64 (Int.tdiv b.Timestamp dynastyInterval) ++ b.miner
  let cnt : Int :=
    match b.dposContext.mintCntTrie.Get key with
    | some bytes => Int64BE bytes
    | none => 0
  { b with dposContext := { b.dposContext with
      mintCntTrie := b.dposContext.mintCntTrie.Put key (FromInt64 (cnt + 1)) } }

/-- `Block.Seal`: `DoubleSealBlock` on a sealed block; otherwise record the
mint count under a batch, read the root hashes into the header, serialise the
DPoS context and compute the block hash. -/
def Block.Seal (H : Bytes → Bytes)
    (Racc : List (Bytes × Account) → Bytes) (Rtx : List (Bytes × Tx) → Bytes)
    (Rev : List (Bytes × Event) → Bytes) (Rb : List (Bytes × Bytes) → Bytes)
    (dynastyInterval : Int) (b : Block) : Block × Option CoreErr :=
  if b.sealed then (b, some .doubleSealBlock)
  else
    let b1 := ((b.begin.recordMintCnt dynastyInterval)).commit
    let b2 := { b1 with header := { b1.header with
      stateRoot := Racc b1.accState.data,
      txsRoot := Rtx b1.txsTrie.data,
      eventsRoot := Rev b1.eventsTrie.data,
      dposContext := b1.dposContext.ToProto Rb } }
    ({ b2 with header := { b2.header with hash := HashBlock H b2 },
               sealed := true }, none)

/-! ## Events (core/block.go `recordEvent`, `FetchEvents`, `triggerEvent`) -/

/-- `Block.recordEvent`: count the events already stored under `txHash`, then
store the new event under `txHash ‖ FromInt64(count + 1)`. -/
def Block.recordEvent (b : Block) (txHash : Bytes) (event : Event) : Block :=
  let cnt : Int :=
    ((b.eventsTrie.data.filter (fun kv => txHash.isPrefixOf kv.1)).length : Int)
  let key := txHash ++ FromInt64 (cnt + 1)
  { b with eventsTrie := b.eventsTrie.Put key event }

/-- `Block.FetchEvents`: all events stored under keys prefixed by `txHash`,
in insertion order, paired with the error slot (the only error paths in the
source are storage failures, which cannot arise in the embedding). -/
def Block.FetchEvents (b : Block) (txHash : Bytes) :
    List Event × Option CoreErr :=
  ((b.eventsTrie.data.filter (fun kv => txHash.isPrefixOf kv.1)).map
    (fun kv => kv.2), none)

/-- The per-transaction topic of `triggerEvent`'s payload-type switch. -/
def txTopic : TxPayloadType → String
  | .binary => TopicSendTransaction
  | .deploy => TopicDeploySmartContract
  | .call => TopicCallSmartContract
  | .delegate => TopicDelegate
  | .candidate => TopicCandidate

/-- `Block.triggerEvent`, returning the list of events published through the
emitter's `Trigger`, in order.  For each transaction the JSON topic event is
published, and the stored events fetched for the transaction hash are
published only under the source's `if err != nil` guard; finally the
link-block event is published.  `txJson`/`blockJson` stand for
`json.Marshal`. -/
def Block.triggerEvent (txJson : Tx → String) (blockJson : Block → String)
    (b : Block) : List Event :=
  (b.transactions.map (fun v =>
    let event : Event := ⟨txTopic v.payloadType, txJson v⟩
    match b.FetchEvents v.hash with
    | (events, err) => event :: (if err.isSome then events else []))).flatten
  ++ [⟨TopicLinkBlock, blockJson b⟩]

/-! ## Execution verification (core/block.go `execute`, `verifyState`,
`VerifyExecution`) -/

/-- The transaction loop of `Block.execute`: no giveback semantics — a
giveback pushes the transaction back to the pool, and any error aborts. -/
def Block.executeTxs (vm : VmExec) : Block → List Tx → Block × Option CoreErr
  | b, [] => (b, none)
  | b, tx :: rest =>
    match Block.executeTransaction vm b tx with
    | (giveback, err, b2) =>
      let b3 := if giveback then { b2 with txPool := b2.txPool ++ [tx] } else b2
      match err with
      | some e => (b3, some e)
      | none => Block.executeTxs vm b3 rest

/-- `Block.execute`: credit the coinbase, execute every transaction in
order, then record the mint count. -/
def Block.execute (vm : VmExec) (dynastyInterval : Int) (b : Block) :
    Block × Option CoreErr :=
  match Block.executeTxs vm b.rewardCoinbase b.transactions with
  | (b2, some e) => (b2, some e)
  | (b2, none) => (b2.recordMintCnt dynastyInterval, none)

/-- `Block.verifyState`: the four root hashes must equal the header
values. -/
def Block.verifyState (H : Bytes → Bytes)
    (Racc : List (Bytes × Account) → Bytes) (Rtx : List (Bytes × Tx) → Bytes)
    (Rev : List (Bytes × Event) → Bytes) (Rb : List (Bytes × Bytes) → Bytes)
    (b : Block) : Option CoreErr :=
  if Racc b.accState.data ≠ b.StateRoot then some .invalidBlockStateRoot
  else if Rtx b.txsTrie.data ≠ b.TxsRoot then some .invalidBlockTxsRoot
  else if Rev b.eventsTrie.data ≠ b.EventsRoot then
    some .invalidBlockEventsRoot
  else if b.dposContext.RootHash H Rb ≠ b.DposContextHash H then
    some .invalidBlockDposContextRoot
  else none

/-- `Block.VerifyExecution`: consensus check, then under one outer batch
execute and verify the state; on success commit and release the buffered
events (returned as the published list), on failure roll back.  `consensus`
stands for `Consensus.VerifyBlock`. -/
def Block.VerifyExecution (vm : VmExec)
    (consensus : Block → Block → Option CoreErr) (H : Bytes → Bytes)
    (Racc : List (Bytes × Account) → Bytes) (Rtx : List (Bytes × Tx) → Bytes)
    (Rev : List (Bytes × Event) → Bytes) (Rb : List (Bytes × Bytes) → Bytes)
    (dynastyInterval : Int) (txJson : Tx → String)
    (blockJson : Block → String) (b parent : Block) :
    Block × List Event × Option CoreErr :=
  match consensus b parent with
  | some e => (b, [], some e)
  | none =>
    match Block.execute vm dynastyInterval b.begin with
    | (b2, some e) => (b2.rollback, [], some e)
    | (b2, none) =>
      match b2.verifyState H Racc Rtx Rev Rb with
      | some e => (b2.rollback, [], some e)
      | none =>
        let b3 := b2.commit
        (b3, b3.triggerEvent txJson blockJson, none)

/-! ## Linking (core/block.go `LinkParentBlock`) -/

/-- `Block.LinkParentBlock`: refuse the link when the parent hash does not
match; otherwise re-clone the parent's overlays, apply the next dynasty
context (`nextDynastyContext` stands for the consensus-layer
`NextDynastyContext`, with `none` meaning generation failure), re-inherit
the shared pool and set `height = parent.height + 1` (u64). -/
def Block.LinkParentBlock (nextDynastyContext : Block → Int → Option DposContext)
    (b parentBlock : Block) : Block × Option CoreErr :=
  if b.ParentHash ≠ parentBlock.Hash then (b, some .linkToWrongParentBlock)
  else
    let b1 := { b with accState := parentBlock.accState.Clone,
                       txsTrie := parentBlock.txsTrie.Clone,
                       eventsTrie := parentBlock.eventsTrie.Clone }
    let elapsedSecond := b.Timestamp - parentBlock.Timestamp
    match nextDynastyContext parentBlock elapsedSecond with
    | none => (b1, some .generateNextDynastyContext)
    | some context =>
      ({ b1 with dposContext := context,
                 txPool := parentBlock.txPool,
                 height := (parentBlock.height + 1) % 2 ^ 64 }, none)

/-! ## P2P node state (net/p2p/net_service.go)

Streams are identified by a numeric id; the byte stream actually written is
returned by the send functions so that "no bytes written" is observable. -/

/-- `ClientVersion` constant. -/
def ClientVersion : String := "0.2.0"

/-- Message-name constant for the network-id message. -/
def NetworkIDName : String := "networkid"

/-- Connection state `SOK`. -/
def SOK : Int := 1

/-- Connection state `SNC` (not connected). -/
def SNC : Int := -1

/-- Connection state `SHandshaking`. -/
def SHandshaking : Int := 0

/-- libp2p `peerstore.PermanentAddrTTL` (max int64). -/
def PermanentAddrTTL : Nat := 2 ^ 63 - 1

/-- The protocol magic number `"NEB1"`. -/
def MagicNumber : Bytes := [0x4e, 0x45, 0x42, 0x31]

/-- A `StreamStore`: key, connection state and the stream handle. -/
structure StreamStore where
  key : String
  conn : Int
  stream : Nat
deriving DecidableEq

/-- `NewStreamStore`. -/
def NewStreamStore (key : String) (conn : Int) (stream : Nat) : StreamStore :=
  ⟨key, conn, stream⟩

/-- The decoded `netpb.Hello` payload (used both for HELLO and OK). -/
structure HelloMessage where
  nodeID : String
  clientVersion : String
deriving DecidableEq

/-- The observable state of `NetService`/`Node`: configuration, the per-peer
stream map, the stream cache, the network-id cache, the peer-store address
TTLs, the routing table, the boot-node ids, and the ids of streams closed so
far. -/
structure NodeState where
  chainID : Nat
  version : Nat
  networkID : Nat
  stream : List (String × StreamStore)
  streamCache : List StreamStore
  networkIDCache : List (String × Nat)
  peerAddrTTL : List (String × Nat)
  routeTable : List String
  bootIds : List String
  closedStreams : List Nat
deriving DecidableEq

/-- `routeTable.Update`: ensure the peer is present. -/
def rtUpdate (rt : List String) (pid : String) : List String :=
  if pid ∈ rt then rt else rt ++ [pid]

/-- `clearPeerStore`: reset the peer's address TTL to 0 and remove it from
the routing table unless it is a configured boot node. -/
def clearPeerStore (ns : NodeState) (pid : String) : NodeState :=
  let ns1 := { ns with peerAddrTTL := assocPut ns.peerAddrTTL pid 0 }
  if pid ∈ ns1.bootIds then ns1
  else { ns1 with routeTable := ns1.routeTable.filter (fun q => q != pid) }

/-- `Bye`: clear the peer store, delete the stream from the per-peer map and
close the stream. -/
def Bye (ns : NodeState) (pid : String) (s : Nat) (key : String) : NodeState :=
  let ns1 := clearPeerStore ns pid
  { ns1 with stream := assocDelete ns1.stream key,
             closedStreams := ns1.closedStreams ++ [s] }

/-- `handleOkMsg`: on an OK payload whose node id matches the stream's
remote peer id and whose client version matches ours, store the stream at
state `SOK`, insert it into the stream cache, add the address at permanent
TTL and update the routing table; otherwise (including a payload that fails
to decode, `msg = none`) the deferred `Bye` runs.  Returns the new state and
the `result` flag. -/
def handleOkMsg (ns : NodeState) (msg : Option HelloMessage) (pid : String)
    (s : Nat) (key : String) : NodeState × Bool :=
  match msg with
  | none => (Bye ns pid s key, false)
  | some ok =>
    if ok.nodeID = pid ∧ ok.clientVersion = ClientVersion then
      let streamStore := NewStreamStore key SOK s
      ({ ns with stream := assocPut ns.stream key streamStore,
                 streamCache := ns.streamCache ++ [streamStore],
                 peerAddrTTL := assocPut ns.peerAddrTTL pid PermanentAddrTTL,
                 routeTable := rtUpdate ns.routeTable pid }, true)
    else (Bye ns pid s key, false)

/-! ## Wire framer (net/p2p/net_service.go `buildHeader`, `buildData`,
`parse`, `verifyHeader`) -/

/-- Go `copy(buf[pos:], src)`: overwrite at most `len(buf) - pos` bytes of
`buf` from `src`, starting at `pos`. -/
def copyAt (buf src : Bytes) (pos : Nat) : Bytes :=
  let k := min src.length (buf.length - pos)
  buf.take pos ++ src.take k ++ buf.drop (pos + k)

/-- `buildHeader`: a 32-byte buffer filled by successive copies — magic
number, chain id, reserved, version, message name, data length, data
checksum (all integers big-endian). -/
def buildHeader (chainID : Nat) (msgName : Bytes) (version : Nat)
    (dataLength : Nat) (dataChecksum : Nat) (reserved : Bytes) : Bytes :=
  let mh0 := List.replicate 32 0
  let mh1 := copyAt mh0 MagicNumber 0
  let mh2 := copyAt mh1 (FromUint32 chainID) 4
  let mh3 := copyAt mh2 reserved 8
  let mh4 := copyAt mh3 [version] 11
  let mh5 := copyAt mh4 msgName 12
  let mh6 := copyAt mh5 (FromUint32 dataLength) 24
  copyAt mh6 (FromUint32 dataChecksum) 28

/-- `buildData`: the 32-byte header, its CRC32 appended big-endian, then the
payload. -/
def buildData (ns : NodeState) (data : Bytes) (msgName : Bytes) : Bytes :=
  let dataChecksum := ChecksumIEEE data
  let reserved : Bytes := [0]
  let metaHeader := buildHeader ns.chainID msgName ns.version
    (data.length % 2 ^ 32) dataChecksum reserved
  let headerChecksum := ChecksumIEEE metaHeader
  metaHeader ++ FromUint32 headerChecksum ++ data

/-- The parsed `Protocol` structure. -/
structure Protocol where
  magicNumber : Bytes
  chainID : Bytes
  version : Nat
  msgName : Bytes
  dataLength : Bytes
  dataChecksum : Bytes
  headerChecksum : Bytes
  dataHeader : Bytes
  data : Bytes
  reserved : Bytes
deriving DecidableEq

/-- `ReadBytes`: read exactly `n` bytes from the stream, failing on a short
read; returns the bytes and the rest of the stream. -/
def ReadBytes (stream : Bytes) (n : Nat) : Option (Bytes × Bytes) :=
  if stream.length < n then none else some (stream.take n, stream.drop n)

/-- The header-field extraction of `parse`: fixed offsets, with the message
name truncated at its first NUL byte when one exists. -/
def parseHeaderFields (header : Bytes) : Protocol :=
  let msgNameRaw := (header.drop 12).take 12
  { magicNumber := header.take 4
    chainID := (header.drop 4).take 4
    reserved := (header.drop 8).take 3
    version := header.getD 11 0
    msgName := if msgNameRaw.contains 0 then
        msgNameRaw.take (msgNameRaw.indexOf 0)
      else msgNameRaw
    dataLength := (header.drop 24).take 4
    dataChecksum := (header.drop 28).take 4
    headerChecksum := (header.drop 32).take 4
    dataHeader := header.take 32
    data := [] }

/-- `verifyHeader`: magic number, chain id, version and header checksum must
all match. -/
def verifyHeader (ns : NodeState) (protocol : Protocol) : Bool :=
  decide (MagicNumber = protocol.magicNumber) &&
  decide (ns.chainID = UintBE protocol.chainID) &&
  decide (ns.version = protocol.version) &&
  decide (ChecksumIEEE protocol.dataHeader = UintBE protocol.headerChecksum)

/-- The distinguishable failures of `parse`. -/
inductive ParseErr
  | readHeaderFailed
  | verifyHeaderFailed
  | readDataFailed
  | dataChecksumMismatch
deriving DecidableEq

/-- `parse`: read the 36-byte header, verify it, read `dataLength` bytes and
verify the data checksum. -/
def parse (ns : NodeState) (stream : Bytes) : Except ParseErr Protocol :=
  match ReadBytes stream 36 with
  | none => .error .readHeaderFailed
  | some (header, s1) =>
    let protocol := parseHeaderFields header
    if verifyHeader ns protocol then
      match ReadBytes s1 (UintBE protocol.dataLength) with
      | none => .error .readDataFailed
      | some (data, _) =>
        if ChecksumIEEE data = UintBE protocol.dataChecksum then
          .ok { protocol with data := data }
        else .error .dataChecksumMismatch
    else .error .verifyHeaderFailed

/-! ## Sending (net/p2p/net_service.go `SendMsg`, `checkNetworkID`) -/

/-- The distinguishable failures of `SendMsg`. -/
inductive NetErr
  | notInSameNetwork
  | streamNotExist
deriving DecidableEq

/-- `checkNetworkID`: true exactly when the target's network id is cached
and its bitwise AND with the local network id is positive. -/
def checkNetworkID (ns : NodeState) (target : String) : Bool :=
  match assocGet ns.networkIDCache target with
  | some targetNetworkID => decide (ns.networkID &&& targetNetworkID > 0)
  | none => false

/-- The code points of a message-name string (ASCII tags in the protocol). -/
def strBytes (s : String) : Bytes := s.data.map Char.toNat

/-- `SendMsg`: refuse any non-`networkid` message when `checkNetworkID`
fails; otherwise look up the stream and write the built frame.  Returns the
list of byte strings written to the stream and the error slot. -/
def SendMsg (ns : NodeState) (msgName : String) (msg : Bytes)
    (target : String) : List Bytes × Option NetErr :=
  if msgName ≠ NetworkIDName ∧ checkNetworkID ns target = false then
    ([], some .notInSameNetwork)
  else
    match assocGet ns.stream target with
    | none => ([], some .streamNotExist)
    | some streamStore =>
      let _ := streamStore
      ([buildData ns msg (strBytes msgName)], none)

/-! ## Concrete fixtures used by the witness theorems -/

/-- A degenerate digest function for instantiating the hash parameter. -/
def zeroHash : Bytes → Bytes := fun _ => []

/-- A degenerate account-state root function. -/
def zeroRootAcc : List (Bytes × Account) → Bytes := fun _ => []

/-- A degenerate txs-trie root function. -/
def zeroRootTx : List (Bytes × Tx) → Bytes := fun _ => []

/-- A degenerate events-trie root function. -/
def zeroRootEv : List (Bytes × Event) → Bytes := fun _ => []

/-- A degenerate byte-trie root function. -/
def zeroRootB : List (Bytes × Bytes) → Bytes := fun _ => []

/-- A concrete transaction: hash `[1]`, sender `[9]`, nonce 1. -/
def txA : Tx := ⟨[1], [9], 1, .binary⟩

/-- A concrete event. -/
def eventA : Event := ⟨"topic.x", "d"⟩

/-- The empty overlay trie. -/
def trieNil : BatchTrie α := ⟨[], none⟩

/-- The empty DPoS context. -/
def dposNil : DposContext := ⟨trieNil, trieNil, trieNil, trieNil, trieNil, trieNil⟩

/-- The all-empty serialised DPoS context. -/
def pbNil : PbDposContext := ⟨[], [], [], [], [], []⟩

/-- A concrete header with empty roots, coinbase `[7]`, timestamp 100. -/
def headerA : BlockHeader := ⟨[], [], [], [], [], pbNil, [7], 0, 100, 1, 0, []⟩

/-- A concrete open block holding one transaction, miner `[3]`. -/
def blockA : Block :=
  ⟨headerA, [txA], false, 5, trieNil, trieNil, trieNil, dposNil, [], [3]⟩

/-- The same block, sealed. -/
def blockSealedA : Block := { blockA with sealed := true }

/-- A VM executor that records `eventA` under the transaction hash and
succeeds. -/
def vmRecordEvent : VmExec := fun tx c =>
  ({ c with events := assocPut c.events (tx.hash ++ FromInt64 1) eventA }, none)

/-- A VM executor that does nothing and succeeds. -/
def vmNoop : VmExec := fun _ c => (c, none)

/-- A VM executor that mutates the staged account data and fails. -/
def vmFail : VmExec := fun _ c =>
  ({ c with acc := assocPut c.acc [5] ⟨1, 2⟩ }, some .payloadExecutionFailed)

/-- A consensus oracle that accepts every block. -/
def consensusOk : Block → Block → Option CoreErr := fun _ _ => none

/-- A degenerate `json.Marshal` for transactions. -/
def txJsonA : Tx → String := fun _ => "tx"

/-- A degenerate `json.Marshal` for blocks. -/
def blockJsonA : Block → String := fun _ => "blk"

/-- A dynasty-context oracle that always yields the empty context. -/
def nextDynastyA : Block → Int → Option DposContext := fun _ _ => some dposNil

/-- A concrete node state: chain id 1, version 0, network id 3, one cached
peer network id 4 (so `3 &&& 4 = 0`), one live stream for peer `"p"`. -/
def nsA : NodeState :=
  ⟨1, 0, 3, [("p", ⟨"p", 1, 3⟩)], [], [("t", 4)], [], ["q"], [], []⟩

/-! # Theorems -/

/-- The hasher's write fold over the transaction hashes is the flattened
concatenation. -/
theorem foldl_hasherWrite (txs : List Tx) (h : Bytes) :
    txs.foldl (fun h tx => h ++ tx.hash) h =
      h ++ (txs.map Tx.hash).flatten := by
  induction txs generalizing h with
  | nil => simp
  | cons tx rest ih =>
    simp only [List.foldl_cons, List.map_cons, List.flatten_cons]
    rw [ih]
    simp [List.append_assoc]

/-- C1: for every block, `HashBlock` equals the SHA3-256 digest of the
concatenation `parent_hash ‖ state_root ‖ txs_root ‖ events_root ‖
dpos_context_hash ‖ nonce ‖ coinbase ‖ timestamp ‖ chain_id ‖ tx_hash_1 ‖ …
‖ tx_hash_n` with big-endian fixed-width integer encodings, where the DPoS
context hash digests the concatenation of the six sub-roots. -/
theorem hashBlock_eq_specBlockDigest (H : Bytes → Bytes) (b : Block) :
    HashBlock H b = specBlockDigest H b := by
  unfold HashBlock specBlockDigest Block.DposContextHash specDposContextHash
  simp only [HasherWrite, Block.ParentHash, Block.StateRoot, Block.TxsRoot,
    Block.EventsRoot, FromUint64, FromUint32, FromInt64, List.nil_append]
  rw [foldl_hasherWrite]

/-- C10: `SetMiner` sets the miner field and changes nothing else — header,
transactions, sealed flag, height, the four overlays and the pool are all
unchanged — for every block, sealed or not (it carries no sealed guard). -/
theorem setMiner_only_sets_miner (b : Block) (m : Bytes) :
    (b.SetMiner m).miner = m ∧ (b.SetMiner m).header = b.header ∧
    (b.SetMiner m).transactions = b.transactions ∧
    (b.SetMiner m).sealed = b.sealed ∧ (b.SetMiner m).height = b.height ∧
    (b.SetMiner m).accState = b.accState ∧
    (b.SetMiner m).txsTrie = b.txsTrie ∧
    (b.SetMiner m).eventsTrie = b.eventsTrie ∧
    (b.SetMiner m).dposContext = b.dposContext ∧
    (b.SetMiner m).txPool = b.txPool := by
  simp [Block.SetMiner]

/-- A successful `Seal` leaves the block sealed. -/
theorem seal_sets_sealed (H : Bytes → Bytes)
    (Racc : List (Bytes × Account) → Bytes) (Rtx : List (Bytes × Tx) → Bytes)
    (Rev : List (Bytes × Event) → Bytes) (Rb : List (Bytes × Bytes) → Bytes)
    (dynastyInterval : Int) (b : Block)
    (h : (Block.Seal H Racc Rtx Rev Rb dynastyInterval b).2 = none) :
    (Block.Seal H Racc Rtx Rev Rb dynastyInterval b).1.sealed = true := by
  unfold Block.Seal at *
  by_cases hb : b.sealed
  · simp [hb] at h
  · simp [hb]

/-- C4: a sealed block is immutable — `SetNonce` and `SetTimestamp` are
no-ops on it, `Seal` returns `DoubleSealBlock` leaving it unchanged, and a
second `Seal` after a successful one returns `DoubleSealBlock` leaving the
sealed block unchanged. -/
theorem sealed_block_immutable (H : Bytes → Bytes)
    (Racc : List (Bytes × Account) → Bytes) (Rtx : List (Bytes × Tx) → Bytes)
    (Rev : List (Bytes × Event) → Bytes) (Rb : List (Bytes × Bytes) → Bytes)
    (dynastyInterval : Int) (b b0 : Block) (n : Nat) (t : Int)
    (hb : b.sealed = true) :
    b.SetNonce n = b ∧ b.SetTimestamp t = b ∧
    Block.Seal H Racc Rtx Rev Rb dynastyInterval b =
      (b, some .doubleSealBlock) ∧
    ((Block.Seal H Racc Rtx Rev Rb dynastyInterval b0).2 = none →
      Block.Seal H Racc Rtx Rev Rb dynastyInterval
          (Block.Seal H Racc Rtx Rev Rb dynastyInterval b0).1 =
        ((Block.Seal H Racc Rtx Rev Rb dynastyInterval b0).1,
         some .doubleSealBlock)) := by
  refine ⟨by simp [Block.SetNonce, hb], by simp [Block.SetTimestamp, hb],
    by simp [Block.Seal, hb], ?_⟩
  intro h0
  have hs := seal_sets_sealed H Racc Rtx Rev Rb dynastyInterval b0 h0
  generalize hB : (Block.Seal H Racc Rtx Rev Rb dynastyInterval b0).1 = B at hs ⊢
  simp [Block.Seal, hs]

/-- C4 witness: the sealed fixture block is immutable and double-sealing the
open fixture block fails on the second call. -/
theorem sealed_block_immutable_witness :
    blockSealedA.sealed = true ∧
    (blockSealedA.SetNonce 5 = blockSealedA ∧
     blockSealedA.SetTimestamp 7 = blockSealedA ∧
     Block.Seal zeroHash zeroRootAcc zeroRootTx zeroRootEv zeroRootB 1
         blockSealedA = (blockSealedA, some .doubleSealBlock) ∧
     ((Block.Seal zeroHash zeroRootAcc zeroRootTx zeroRootEv zeroRootB 1
           blockA).2 = none →
       Block.Seal zeroHash zeroRootAcc zeroRootTx zeroRootEv zeroRootB 1
           (Block.Seal zeroHash zeroRootAcc zeroRootTx zeroRootEv zeroRootB 1
             blockA).1 =
         ((Block.Seal zeroHash zeroRootAcc zeroRootTx zeroRootEv zeroRootB 1
             blockA).1, some .doubleSealBlock))) :=
  ⟨by decide, sealed_block_immutable zeroHash zeroRootAcc zeroRootTx
    zeroRootEv zeroRootB 1 blockSealedA blockA 5 7 (by decide)⟩

/-- C3: the admission check for a transaction — duplication first
(`DuplicatedTransaction`, no giveback), then the nonce window: strictly
below `sender.nonce + 1` drops permanently (`SmallTransactionNonce`),
strictly above gives back (`LargeTransactionNonce`), and exactly
`sender.nonce + 1` passes, upon which `executeTransaction` proceeds to the
VM-execution-and-accept path. -/
theorem checkTransaction_cases (vm : VmExec) (b : Block) (tx : Tx)
    (hn : (b.accState.GetOrCreateUserAccount tx.fromAddr).nonce + 1 < 2 ^ 64) :
    ((b.txsTrie.Prove tx.hash).isSome = true →
      b.checkTransaction tx = (false, some .duplicatedTransaction) ∧
      Block.executeTransaction vm b tx =
        (false, some .duplicatedTransaction, b)) ∧
    ((b.txsTrie.Prove tx.hash).isSome = false →
      (tx.nonce < (b.accState.GetOrCreateUserAccount tx.fromAddr).nonce + 1 →
        b.checkTransaction tx = (false, some .smallTransactionNonce) ∧
        Block.executeTransaction vm b tx =
          (false, some .smallTransactionNonce, b)) ∧
      (tx.nonce > (b.accState.GetOrCreateUserAccount tx.fromAddr).nonce + 1 →
        b.checkTransaction tx = (true, some .largeTransactionNonce) ∧
        Block.executeTransaction vm b tx =
          (true, some .largeTransactionNonce, b)) ∧
      (tx.nonce = (b.accState.GetOrCreateUserAccount tx.fromAddr).nonce + 1 →
        b.checkTransaction tx = (false, none) ∧
        Block.executeTransaction vm b tx = Block.runVM vm b tx)) := by
  have hmod : ((b.accState.GetOrCreateUserAccount tx.fromAddr).nonce + 1)
      % 2 ^ 64 = (b.accState.GetOrCreateUserAccount tx.fromAddr).nonce + 1 :=
    Nat.mod_eq_of_lt hn
  unfold Block.executeTransaction
  unfold Block.checkTransaction
  simp only []
  rw [hmod]
  refine ⟨?_, ?_⟩
  · intro hdup
    constructor <;> simp [hdup]
  · intro hdup
    refine ⟨?_, ?_, ?_⟩
    · intro hlt
      constructor <;> simp [hdup, hlt]
    · intro hgt
      have hnlt : ¬ tx.nonce <
          (b.accState.GetOrCreateUserAccount tx.fromAddr).nonce + 1 := by
        omega
      constructor <;> simp [hdup, hnlt, hgt]
    · intro heq
      have hnlt : ¬ tx.nonce <
          (b.accState.GetOrCreateUserAccount tx.fromAddr).nonce + 1 := by
        omega
      have hngt : ¬ (b.accState.GetOrCreateUserAccount tx.fromAddr).nonce + 1
          < tx.nonce := by
        omega
      constructor <;> simp [hdup, hnlt, hngt]

/-- C3 witness: on the fixture block (fresh sender, nonce window at 1) the
pass case fires for the fixture transaction and the small-nonce case fires
for its nonce-0 variant. -/
theorem checkTransaction_cases_witness :
    (blockA.accState.GetOrCreateUserAccount txA.fromAddr).nonce + 1 < 2 ^ 64 ∧
    ((blockA.txsTrie.Prove txA.hash).isSome = false →
      (txA.nonce < (blockA.accState.GetOrCreateUserAccount txA.fromAddr).nonce
          + 1 →
        blockA.checkTransaction txA = (false, some .smallTransactionNonce) ∧
        Block.executeTransaction vmNoop blockA txA =
          (false, some .smallTransactionNonce, blockA)) ∧
      (txA.nonce > (blockA.accState.GetOrCreateUserAccount txA.fromAddr).nonce
          + 1 →
        blockA.checkTransaction txA = (true, some .largeTransactionNonce) ∧
        Block.executeTransaction vmNoop blockA txA =
          (true, some .largeTransactionNonce, blockA)) ∧
      (txA.nonce = (blockA.accState.GetOrCreateUserAccount txA.fromAddr).nonce
          + 1 →
        blockA.checkTransaction txA = (false, none) ∧
        Block.executeTransaction vmNoop blockA txA =
          Block.runVM vmNoop blockA txA)) :=
  ⟨by decide, (checkTransaction_cases vmNoop blockA txA (by decide)).2⟩

/-- `executeTransaction` never touches the batch snapshots of the four
overlays: the admission check is read-only, the VM mutates only the staged
`CoreData`, and acceptance uses staged puts. -/
theorem executeTransaction_snapshots (vm : VmExec) (b : Block) (tx : Tx) :
    (Block.executeTransaction vm b tx).2.2.accState.snapshot =
      b.accState.snapshot ∧
    (Block.executeTransaction vm b tx).2.2.txsTrie.snapshot =
      b.txsTrie.snapshot ∧
    (Block.executeTransaction vm b tx).2.2.eventsTrie.snapshot =
      b.eventsTrie.snapshot ∧
    (Block.executeTransaction vm b tx).2.2.dposContext.dynastyTrie.snapshot =
      b.dposContext.dynastyTrie.snapshot ∧
    (Block.executeTransaction vm b tx).2.2.dposContext.nextDynastyTrie.snapshot
      = b.dposContext.nextDynastyTrie.snapshot ∧
    (Block.executeTransaction vm b tx).2.2.dposContext.delegateTrie.snapshot =
      b.dposContext.delegateTrie.snapshot ∧
    (Block.executeTransaction vm b tx).2.2.dposContext.voteTrie.snapshot =
      b.dposContext.voteTrie.snapshot ∧
    (Block.executeTransaction vm b tx).2.2.dposContext.candidateTrie.snapshot =
      b.dposContext.candidateTrie.snapshot ∧
    (Block.executeTransaction vm b tx).2.2.dposContext.mintCntTrie.snapshot =
      b.dposContext.mintCntTrie.snapshot := by
  unfold Block.executeTransaction Block.runVM Block.acceptTransaction
    Block.withCore
  rcases hc : b.checkTransaction tx with ⟨gb, err⟩
  cases err with
  | none =>
    rcases hv : vm tx b.core with ⟨c, verr⟩
    cases verr <;> simp [hv, BatchTrie.Put]
  | some e => simp

/-- C2: per-transaction inclusion in `CollectTransactions` is atomic — when
`executeTransaction` fails inside a `collectStep`, the rollback that follows
leaves the staged contents, and hence all four root hashes (account state,
txs trie, events trie, DPoS context) for every root-hash function, bitwise
equal to their values before the `begin()` of that step. -/
theorem collectStep_error_preserves_roots (vm : VmExec) (b : Block) (tx : Tx)
    (e : CoreErr) (h : (Block.collectStep vm b tx).2.2 = some e) :
    ((Block.collectStep vm b tx).1.accState.data = b.accState.data ∧
     (Block.collectStep vm b tx).1.txsTrie.data = b.txsTrie.data ∧
     (Block.collectStep vm b tx).1.eventsTrie.data = b.eventsTrie.data ∧
     (Block.collectStep vm b tx).1.dposContext.dynastyTrie.data =
       b.dposContext.dynastyTrie.data ∧
     (Block.collectStep vm b tx).1.dposContext.nextDynastyTrie.data =
       b.dposContext.nextDynastyTrie.data ∧
     (Block.collectStep vm b tx).1.dposContext.delegateTrie.data =
       b.dposContext.delegateTrie.data ∧
     (Block.collectStep vm b tx).1.dposContext.voteTrie.data =
       b.dposContext.voteTrie.data ∧
     (Block.collectStep vm b tx).1.dposContext.candidateTrie.data =
       b.dposContext.candidateTrie.data ∧
     (Block.collectStep vm b tx).1.dposContext.mintCntTrie.data =
       b.dposContext.mintCntTrie.data) ∧
    (∀ (H : Bytes → Bytes) (Racc : List (Bytes × Account) → Bytes)
       (Rtx : List (Bytes × Tx) → Bytes) (Rev : List (Bytes × Event) → Bytes)
       (Rb : List (Bytes × Bytes) → Bytes),
      Racc (Block.collectStep vm b tx).1.accState.data =
        Racc b.accState.data ∧
      Rtx (Block.collectStep vm b tx).1.txsTrie.data = Rtx b.txsTrie.data ∧
      Rev (Block.collectStep vm b tx).1.eventsTrie.data =
        Rev b.eventsTrie.data ∧
      (Block.collectStep vm b tx).1.dposContext.RootHash H Rb =
        b.dposContext.RootHash H Rb) := by
  have hsnap := executeTransaction_snapshots vm b.begin tx
  have hdata : (Block.collectStep vm b tx).1.accState.data = b.accState.data ∧
      (Block.collectStep vm b tx).1.txsTrie.data = b.txsTrie.data ∧
      (Block.collectStep vm b tx).1.eventsTrie.data = b.eventsTrie.data ∧
      (Block.collectStep vm b tx).1.dposContext.dynastyTrie.data =
        b.dposContext.dynastyTrie.data ∧
      (Block.collectStep vm b tx).1.dposContext.nextDynastyTrie.data =
        b.dposContext.nextDynastyTrie.data ∧
      (Block.collectStep vm b tx).1.dposContext.delegateTrie.data =
        b.dposContext.delegateTrie.data ∧
      (Block.collectStep vm b tx).1.dposContext.voteTrie.data =
        b.dposContext.voteTrie.data ∧
      (Block.collectStep vm b tx).1.dposContext.candidateTrie.data =
        b.dposContext.candidateTrie.data ∧
      (Block.collectStep vm b tx).1.dposContext.mintCntTrie.data =
        b.dposContext.mintCntTrie.data := by
    unfold Block.collectStep at h ⊢
    rcases hexec : Block.executeTransaction vm b.begin tx with ⟨gb, err, b2⟩
    cases err with
    | none =>
      rw [hexec] at h
      simp at h
    | some e2 =>
      rw [hexec] at hsnap
      simp only at hsnap ⊢
      simp [Block.rollback, BatchTrie.RollBack, DposContext.RollBack,
        hsnap.1, hsnap.2.1, hsnap.2.2.1, hsnap.2.2.2.1, hsnap.2.2.2.2.1,
        hsnap.2.2.2.2.2.1, hsnap.2.2.2.2.2.2.1, hsnap.2.2.2.2.2.2.2.1,
        hsnap.2.2.2.2.2.2.2.2, Block.begin, BatchTrie.BeginBatch,
        DposContext.BeginBatch]
  refine ⟨hdata, ?_⟩
  intro H Racc Rtx Rev Rb
  refine ⟨by rw [hdata.1], by rw [hdata.2.1], by rw [hdata.2.2.1], ?_⟩
  unfold DposContext.RootHash
  rw [hdata.2.2.2.1, hdata.2.2.2.2.1, hdata.2.2.2.2.2.1,
    hdata.2.2.2.2.2.2.1, hdata.2.2.2.2.2.2.2.1, hdata.2.2.2.2.2.2.2.2]

/-- C2 witness: a concrete failing step — the VM mutates the staged account
data and then fails — leaves the staged contents and the (fixture) root
hashes of all four overlays unchanged. -/
theorem collectStep_error_preserves_roots_witness :
    (Block.collectStep vmFail blockA txA).2.2 =
      some CoreErr.payloadExecutionFailed ∧
    ((Block.collectStep vmFail blockA txA).1.accState.data =
       blockA.accState.data ∧
     (Block.collectStep vmFail blockA txA).1.txsTrie.data =
       blockA.txsTrie.data ∧
     (Block.collectStep vmFail blockA txA).1.eventsTrie.data =
       blockA.eventsTrie.data ∧
     (Block.collectStep vmFail blockA txA).1.dposContext.dynastyTrie.data =
       blockA.dposContext.dynastyTrie.data ∧
     (Block.collectStep vmFail blockA txA).1.dposContext.nextDynastyTrie.data
       = blockA.dposContext.nextDynastyTrie.data ∧
     (Block.collectStep vmFail blockA txA).1.dposContext.delegateTrie.data =
       blockA.dposContext.delegateTrie.data ∧
     (Block.collectStep vmFail blockA txA).1.dposContext.voteTrie.data =
       blockA.dposContext.voteTrie.data ∧
     (Block.collectStep vmFail blockA txA).1.dposContext.candidateTrie.data =
       blockA.dposContext.candidateTrie.data ∧
     (Block.collectStep vmFail blockA txA).1.dposContext.mintCntTrie.data =
       blockA.dposContext.mintCntTrie.data) ∧
    (zeroRootAcc (Block.collectStep vmFail blockA txA).1.accState.data =
       zeroRootAcc blockA.accState.data ∧
     zeroRootTx (Block.collectStep vmFail blockA txA).1.txsTrie.data =
       zeroRootTx blockA.txsTrie.data ∧
     zeroRootEv (Block.collectStep vmFail blockA txA).1.eventsTrie.data =
       zeroRootEv blockA.eventsTrie.data ∧
     (Block.collectStep vmFail blockA txA).1.dposContext.RootHash zeroHash
         zeroRootB =
       blockA.dposContext.RootHash zeroHash zeroRootB) :=
  ⟨by decide,
   (collectStep_error_preserves_roots vmFail blockA txA
     CoreErr.payloadExecutionFailed (by decide)).1,
   (collectStep_error_preserves_roots vmFail blockA txA
     CoreErr.payloadExecutionFailed (by decide)).2 zeroHash zeroRootAcc
     zeroRootTx zeroRootEv zeroRootB⟩

/-- C8: `LinkParentBlock` refuses the link with the wrong-parent error and
leaves the block untouched whenever the parent hash differs; whenever the
link succeeds, the height is `parent.height + 1` (u64, hence plainly
`parent.height + 1` whenever that does not overflow). -/
theorem linkParentBlock_height (nextDynastyContext : Block → Int → Option DposContext)
    (b parentBlock : Block) :
    (b.ParentHash ≠ parentBlock.Hash →
      Block.LinkParentBlock nextDynastyContext b parentBlock =
        (b, some .linkToWrongParentBlock)) ∧
    (∀ b2, Block.LinkParentBlock nextDynastyContext b parentBlock =
        (b2, none) →
      b2.height = (parentBlock.height + 1) % 2 ^ 64 ∧
      (parentBlock.height + 1 < 2 ^ 64 →
        b2.height = parentBlock.height + 1)) := by
  constructor
  · intro hne
    simp [Block.LinkParentBlock, hne]
  · intro b2 hok
    unfold Block.LinkParentBlock at hok
    by_cases hne : b.ParentHash ≠ parentBlock.Hash
    · simp [hne] at hok
    · simp only [hne, if_false] at hok
      cases hdyn : nextDynastyContext parentBlock
          (b.Timestamp - parentBlock.Timestamp) with
      | none => rw [hdyn] at hok; simp at hok
      | some context =>
        rw [hdyn] at hok
        simp only [Prod.mk.injEq] at hok
        constructor
        · rw [← hok.1]
        · intro hlt
          rw [← hok.1]
          simp only []
          rw [Nat.mod_eq_of_lt hlt]

/-- C8 witness: linking the fixture block to a parent with hash `[1]`
(different from the block's parent hash `[]`) is refused; linking to a
parent whose hash matches succeeds with height `parent.height + 1 = 6`. -/
theorem linkParentBlock_height_witness :
    (Block.LinkParentBlock nextDynastyA blockA
        ({ blockA with header := { headerA with hash := [1] } }) =
      (blockA, some .linkToWrongParentBlock)) ∧
    ((Block.LinkParentBlock nextDynastyA blockA blockA).1.height = 6) := by
  constructor
  · exact (linkParentBlock_height nextDynastyA blockA
      ({ blockA with header := { headerA with hash := [1] } })).1 (by decide)
  · have h := (linkParentBlock_height nextDynastyA blockA blockA).2
      (Block.LinkParentBlock nextDynastyA blockA blockA).1 (by decide)
    have h6 : blockA.height + 1 = 6 := by decide
    rw [h.2 (by decide), h6]

/-- C7: `SendMsg` of any non-`networkid` message refuses with the
distinguishable not-in-same-network error and writes no bytes whenever the
target's cached network id is absent or its bitwise AND with the local
network id is zero. -/
theorem sendMsg_networkID_gate (ns : NodeState) (msgName : String)
    (msg : Bytes) (target : String) (hname : msgName ≠ NetworkIDName)
    (hgate : ∀ tid, assocGet ns.networkIDCache target = some tid →
      ns.networkID &&& tid = 0) :
    SendMsg ns msgName msg target = ([], some .notInSameNetwork) := by
  have hcheck : checkNetworkID ns target = false := by
    unfold checkNetworkID
    cases hc : assocGet ns.networkIDCache target with
    | none => simp
    | some tid => simp [hgate tid hc]
  simp [SendMsg, hname, hcheck]

/-- C7 witness: on the fixture node (local mask 3, cached peer mask 4,
intersection 0) a `syncroute` send is refused with no bytes written. -/
theorem sendMsg_networkID_gate_witness :
    ("syncroute" ≠ NetworkIDName) ∧
    SendMsg nsA "syncroute" [1, 2] "t" = ([], some .notInSameNetwork) :=
  ⟨by decide, sendMsg_networkID_gate nsA "syncroute" [1, 2] "t" (by decide)
    (by intro tid h; simp [nsA, assocGet] at h; rcases h with rfl; decide)⟩

/-- C9: `handleOkMsg` advances the session (stream stored at state `SOK` in
the per-peer map, inserted into the stream cache, address added at permanent
TTL, routing table updated) if and only if the decoded OK payload's node id
equals the stream's remote peer id and its client version equals the local
client version; on any mismatch (including decode failure) the state is the
`Bye` state — the handshake does not advance and the stream is closed. -/
theorem handleOkMsg_advances_iff (ns : NodeState) (msg : Option HelloMessage)
    (pid : String) (s : Nat) (key : String) :
    ((handleOkMsg ns msg pid s key).2 = true ↔
      ∃ m, msg = some m ∧ m.nodeID = pid ∧
        m.clientVersion = ClientVersion) ∧
    (∀ m, msg = some m → m.nodeID = pid → m.clientVersion = ClientVersion →
      handleOkMsg ns msg pid s key =
        ({ ns with
            stream := assocPut ns.stream key (NewStreamStore key SOK s),
            streamCache := ns.streamCache ++ [NewStreamStore key SOK s],
            peerAddrTTL := assocPut ns.peerAddrTTL pid PermanentAddrTTL,
            routeTable := rtUpdate ns.routeTable pid }, true)) ∧
    ((¬ ∃ m, msg = some m ∧ m.nodeID = pid ∧
        m.clientVersion = ClientVersion) →
      handleOkMsg ns msg pid s key = (Bye ns pid s key, false)) := by
  refine ⟨?_, ?_, ?_⟩
  · cases msg with
    | none => simp [handleOkMsg]
    | some m =>
      by_cases hc : m.nodeID = pid ∧ m.clientVersion = ClientVersion
      · simp [handleOkMsg, hc]
      · simp only [handleOkMsg, hc, if_false]
        simp only [Option.some.injEq]
        constructor
        · intro hfalse
          exact absurd hfalse Bool.false_ne_true
        · rintro ⟨m2, rfl, h1, h2⟩
          exact absurd ⟨h1, h2⟩ hc
  · rintro m rfl h1 h2
    simp [handleOkMsg, h1, h2]
  · intro hno
    cases msg with
    | none => simp [handleOkMsg]
    | some m =>
      by_cases hc : m.nodeID = pid ∧ m.clientVersion = ClientVersion
      · exact absurd ⟨m, rfl, hc.1, hc.2⟩ hno
      · simp [handleOkMsg, hc]

/-- C9 witness: on the fixture node, a matching OK payload for peer `"r"`
advances the session with the four updates, and an OK payload carrying a
different node id yields the `Bye` state. -/
theorem handleOkMsg_advances_iff_witness :
    (handleOkMsg nsA (some ⟨"r", "0.2.0"⟩) "r" 4 "r" =
      ({ nsA with
          stream := assocPut nsA.stream "r" (NewStreamStore "r" SOK 4),
          streamCache := nsA.streamCache ++ [NewStreamStore "r" SOK 4],
          peerAddrTTL := assocPut nsA.peerAddrTTL "r" PermanentAddrTTL,
          routeTable := rtUpdate nsA.routeTable "r" }, true)) ∧
    (handleOkMsg nsA (some ⟨"x", "0.2.0"⟩) "r" 4 "r" =
      (Bye nsA "r" 4 "r", false)) :=
  ⟨(handleOkMsg_advances_iff nsA (some ⟨"r", "0.2.0"⟩) "r" 4 "r").2.1
      ⟨"r", "0.2.0"⟩ rfl (by decide) (by decide),
   (handleOkMsg_advances_iff nsA (some ⟨"x", "0.2.0"⟩) "r" 4 "r").2.2
      (by rintro ⟨m, hm, h1, h2⟩; rw [Option.some.injEq] at hm; subst hm
          exact absurd h1 (by decide))⟩

/-- C5 (code defect): after a successful `VerifyExecution`, the events
recorded under a transaction's hash are NOT released — `triggerEvent` guards
the release loop with `if err != nil`, so on a successful `FetchEvents` the
stored events are skipped.  At this concrete input the VM records `eventA`
under the fixture transaction's hash, `VerifyExecution` commits,
`FetchEvents` succeeds returning `[eventA]`, yet `eventA` is never
published. -/
theorem verifyExecution_does_not_release_events :
    (Block.VerifyExecution vmRecordEvent consensusOk zeroHash zeroRootAcc
        zeroRootTx zeroRootEv zeroRootB 1 txJsonA blockJsonA blockA
        blockA).2.2 = none ∧
    (Block.VerifyExecution vmRecordEvent consensusOk zeroHash zeroRootAcc
        zeroRootTx zeroRootEv zeroRootB 1 txJsonA blockJsonA blockA
        blockA).1.FetchEvents txA.hash = ([eventA], none) ∧
    eventA ∉ (Block.VerifyExecution vmRecordEvent consensusOk zeroHash
        zeroRootAcc zeroRootTx zeroRootEv zeroRootB 1 txJsonA blockJsonA
        blockA blockA).2.1 := by
  refine ⟨by decide, by decide, by decide⟩

/-! ## CRC32 lemmas for the framing claim -/

/-- Xoring a value below `2^31` with the reversed polynomial sets bit 31. -/
theorem xor_poly_ge (a : Nat) (h : a < 2 ^ 31) :
    2 ^ 31 ≤ a ^^^ 0xEDB88320 := by
  apply Nat.testBit_implies_ge (i := 31)
  rw [Nat.testBit_xor, Nat.testBit_lt_two_pow h]
  decide

/-- The CRC bit-step keeps the state below `2^32`. -/
theorem crc32Round_lt (c : Nat) (h : c < 2 ^ 32) : crc32Round c < 2 ^ 32 := by
  unfold crc32Round
  split
  · exact Nat.xor_lt_two_pow (by omega) (by decide)
  · omega

/-- The CRC bit-step is injective on states below `2^32`. -/
theorem crc32Round_inj (c1 c2 : Nat) (h1 : c1 < 2 ^ 32) (h2 : c2 < 2 ^ 32)
    (h : crc32Round c1 = crc32Round c2) : c1 = c2 := by
  unfold crc32Round at h
  have hxor : ∀ a b : Nat, a ^^^ 0xEDB88320 = b ^^^ 0xEDB88320 → a = b := by
    intro a b hab
    have := congrArg (· ^^^ 0xEDB88320) hab
    simpa using this
  by_cases p1 : c1 % 2 = 1 <;> by_cases p2 : c2 % 2 = 1 <;>
    simp only [p1, p2, if_true, if_false] at h
  · have := hxor _ _ h
    omega
  · exfalso
    have hge := xor_poly_ge (c1 / 2) (by omega)
    omega
  · exfalso
    have hge := xor_poly_ge (c2 / 2) (by omega)
    omega
  · omega

/-- Iterated CRC bit-steps keep the state below `2^32`. -/
theorem crc32Rounds_lt (n c : Nat) (h : c < 2 ^ 32) :
    crc32Rounds n c < 2 ^ 32 := by
  induction n generalizing c with
  | zero => exact h
  | succ k ih => exact ih (crc32Round c) (crc32Round_lt c h)

/-- Iterated CRC bit-steps are injective on states below `2^32`. -/
theorem crc32Rounds_inj (n c1 c2 : Nat) (h1 : c1 < 2 ^ 32)
    (h2 : c2 < 2 ^ 32) (h : crc32Rounds n c1 = crc32Rounds n c2) : c1 = c2 := by
  induction n generalizing c1 c2 with
  | zero => exact h
  | succ k ih =>
    exact crc32Round_inj c1 c2 h1 h2
      (ih (crc32Round c1) (crc32Round c2) (crc32Round_lt c1 h1)
        (crc32Round_lt c2 h2) h)

/-- The CRC byte-step keeps the state below `2^32`. -/
theorem crc32Byte_lt (c b : Nat) (h : c < 2 ^ 32) : crc32Byte c b < 2 ^ 32 :=
  crc32Rounds_lt 8 _ (Nat.xor_lt_two_pow h (by omega))

/-- The CRC byte-step is injective in the state. -/
theorem crc32Byte_inj_state (c1 c2 b : Nat) (h1 : c1 < 2 ^ 32)
    (h2 : c2 < 2 ^ 32) (h : crc32Byte c1 b = crc32Byte c2 b) : c1 = c2 := by
  unfold crc32Byte at h
  have hx := crc32Rounds_inj 8 _ _ (Nat.xor_lt_two_pow h1 (by omega))
    (Nat.xor_lt_two_pow h2 (by omega)) h
  have := congrArg (· ^^^ (b % 256)) hx
  simpa using this

/-- Distinct bytes step a state below `2^32` to distinct states. -/
theorem crc32Byte_ne_byte (c b1 b2 : Nat) (hc : c < 2 ^ 32) (hb1 : b1 < 256)
    (hb2 : b2 < 256) (hne : b1 ≠ b2) : crc32Byte c b1 ≠ crc32Byte c b2 := by
  intro h
  apply hne
  unfold crc32Byte at h
  have hx := crc32Rounds_inj 8 _ _ (Nat.xor_lt_two_pow hc (by omega))
    (Nat.xor_lt_two_pow hc (by omega)) h
  have := congrArg (· ^^^ c) hx
  simp only [Nat.xor_comm c] at hx
  have hb : b1 % 256 = b2 % 256 := by
    have := congrArg (· ^^^ c) hx
    simpa [Nat.xor_assoc] using this
  omega

/-- The CRC state machine keeps the state below `2^32`. -/
theorem crc32Update_lt (l : Bytes) (c : Nat) (h : c < 2 ^ 32) :
    crc32Update c l < 2 ^ 32 := by
  induction l generalizing c with
  | nil => exact h
  | cons x r ih =>
    simpa [crc32Update] using ih (crc32Byte c x) (crc32Byte_lt c x h)

/-- The CRC state machine is injective in the initial state. -/
theorem crc32Update_inj (l : Bytes) (c1 c2 : Nat) (h1 : c1 < 2 ^ 32)
    (h2 : c2 < 2 ^ 32) (h : crc32Update c1 l = crc32Update c2 l) : c1 = c2 := by
  induction l generalizing c1 c2 with
  | nil => exact h
  | cons x r ih =>
    simp only [crc32Update, List.foldl_cons] at h
    exact crc32Byte_inj_state c1 c2 x h1 h2
      (ih (crc32Byte c1 x) (crc32Byte c2 x) (crc32Byte_lt c1 x h1)
        (crc32Byte_lt c2 x h2) h)

/-- `ChecksumIEEE` stays below `2^32`. -/
theorem checksumIEEE_lt (l : Bytes) : ChecksumIEEE l < 2 ^ 32 :=
  Nat.xor_lt_two_pow (crc32Update_lt l 0xFFFFFFFF (by decide)) (by decide)

/-- Corrupting a single byte of the input always changes `ChecksumIEEE`. -/
theorem checksumIEEE_single_byte (pre suf : Bytes) (b1 b2 : Nat)
    (hb1 : b1 < 256) (hb2 : b2 < 256) (hne : b1 ≠ b2) :
    ChecksumIEEE (pre ++ b1 :: suf) ≠ ChecksumIEEE (pre ++ b2 :: suf) := by
  intro h
  unfold ChecksumIEEE at h
  have hupd : crc32Update 0xFFFFFFFF (pre ++ b1 :: suf) =
      crc32Update 0xFFFFFFFF (pre ++ b2 :: suf) := by
    have := congrArg (· ^^^ 0xFFFFFFFF) h
    simpa [Nat.xor_assoc] using this
  simp only [crc32Update, List.foldl_append, List.foldl_cons] at hupd
  have hc : pre.foldl crc32Byte 0xFFFFFFFF < 2 ^ 32 :=
    crc32Update_lt pre 0xFFFFFFFF (by decide)
  have hstep := crc32Update_inj suf _ _
    (crc32Byte_lt _ b1 hc) (crc32Byte_lt _ b2 hc) hupd
  exact crc32Byte_ne_byte _ b1 b2 hc hb1 hb2 hne hstep

/-! ## Wire-header layout lemmas -/

/-- `beBytes` always produces exactly `w` bytes. -/
theorem beBytes_length (w n : Nat) : (beBytes w n).length = w := by
  simp [beBytes]

/-- A `copy` whose source fits in the suffix region starting at `pos`
replaces the head of that region. -/
theorem copyAt_fit (X Z src : Bytes) (pos : Nat) (hpos : X.length = pos)
    (hle : src.length ≤ Z.length) :
    copyAt (X ++ Z) src pos = X ++ src ++ Z.drop src.length := by
  subst hpos
  have hlen : (X ++ Z).length - X.length = Z.length := by simp
  simp [copyAt, hlen, Nat.min_eq_left hle, List.take_left, List.drop_append]

/-- The 32-byte header built by `buildHeader` with a message name of at most
12 bytes, as one concatenation. -/
theorem buildHeader_norm (c : Nat) (name : Bytes) (v dl ck : Nat)
    (hname : name.length ≤ 12) :
    buildHeader c name v dl ck [0] =
      MagicNumber ++ FromUint32 c ++ [0] ++ [0, 0] ++ [v] ++ name ++
      List.replicate (12 - name.length) 0 ++ FromUint32 dl ++ FromUint32 ck := by
  have l4c : (FromUint32 c).length = 4 := beBytes_length 4 c
  have l4dl : (FromUint32 dl).length = 4 := beBytes_length 4 dl
  have l4ck : (FromUint32 ck).length = 4 := beBytes_length 4 ck
  have e1 : copyAt (List.replicate 32 0) MagicNumber 0 =
      MagicNumber ++ List.replicate 28 0 := by
    have h := copyAt_fit [] (List.replicate 32 0) MagicNumber 0 rfl
      (by simp [MagicNumber])
    simpa [MagicNumber, List.drop_replicate] using h
  have e2 : copyAt (MagicNumber ++ List.replicate 28 0) (FromUint32 c) 4 =
      (MagicNumber ++ FromUint32 c) ++ List.replicate 24 0 := by
    have h := copyAt_fit MagicNumber (List.replicate 28 0) (FromUint32 c) 4
      (by simp [MagicNumber]) (by rw [l4c]; simp)
    rw [h, l4c]
    simp [List.drop_replicate]
  have e3 : copyAt ((MagicNumber ++ FromUint32 c) ++ List.replicate 24 0)
      [0] 8 = ((MagicNumber ++ FromUint32 c) ++ [0]) ++ List.replicate 23 0 := by
    have h := copyAt_fit (MagicNumber ++ FromUint32 c) (List.replicate 24 0)
      [0] 8 (by simp [MagicNumber, l4c]) (by simp)
    rw [h]
    simp [List.drop_replicate]
  have hsplit23 : List.replicate 23 (0 : Nat) =
      [0, 0] ++ List.replicate 21 0 := by decide
  have e4 : copyAt (((MagicNumber ++ FromUint32 c) ++ [0]) ++
        List.replicate 23 0) [v] 11 =
      ((((MagicNumber ++ FromUint32 c) ++ [0]) ++ [0, 0]) ++ [v]) ++
        List.replicate 20 0 := by
    rw [hsplit23, ← List.append_assoc]
    have h := copyAt_fit (((MagicNumber ++ FromUint32 c) ++ [0]) ++ [0, 0])
      (List.replicate 21 0) [v] 11 (by simp [MagicNumber, l4c]) (by simp)
    rw [h]
    simp [List.drop_replicate]
  have e5 : copyAt (((((MagicNumber ++ FromUint32 c) ++ [0]) ++ [0, 0]) ++
        [v]) ++ List.replicate 20 0) name 12 =
      (((((MagicNumber ++ FromUint32 c) ++ [0]) ++ [0, 0]) ++ [v]) ++ name)
        ++ List.replicate (20 - name.length) 0 := by
    have h := copyAt_fit ((((MagicNumber ++ FromUint32 c) ++ [0]) ++ [0, 0])
        ++ [v]) (List.replicate 20 0) name 12 (by simp [MagicNumber, l4c])
      (by simp; omega)
    rw [h, List.drop_replicate]
  have hsplit20 : List.replicate (20 - name.length) (0 : Nat) =
      List.replicate (12 - name.length) 0 ++ List.replicate 8 0 := by
    have h20 : 20 - name.length = (12 - name.length) + 8 := by omega
    rw [h20, List.replicate_add]
  have e6 : copyAt ((((((MagicNumber ++ FromUint32 c) ++ [0]) ++ [0, 0]) ++
        [v]) ++ name) ++ List.replicate (20 - name.length) 0)
        (FromUint32 dl) 24 =
      (((((((MagicNumber ++ FromUint32 c) ++ [0]) ++ [0, 0]) ++ [v]) ++ name)
        ++ List.replicate (12 - name.length) 0) ++ FromUint32 dl) ++
        List.replicate 4 0 := by
    rw [hsplit20, ← List.append_assoc]
    have h := copyAt_fit (((((((MagicNumber ++ FromUint32 c) ++ [0]) ++
        [0, 0]) ++ [v]) ++ name)) ++ List.replicate (12 - name.length) 0)
      (List.replicate 8 0) (FromUint32 dl) 24
      (by simp [MagicNumber, l4c]; omega) (by rw [l4dl]; simp)
    rw [h, l4dl]
    simp [List.drop_replicate]
  have e7 : copyAt ((((((((MagicNumber ++ FromUint32 c) ++ [0]) ++ [0, 0]) ++
        [v]) ++ name) ++ List.replicate (12 - name.length) 0) ++
        FromUint32 dl) ++ List.replicate 4 0) (FromUint32 ck) 28 =
      ((((((((MagicNumber ++ FromUint32 c) ++ [0]) ++ [0, 0]) ++ [v]) ++
        name) ++ List.replicate (12 - name.length) 0) ++ FromUint32 dl) ++
        FromUint32 ck) := by
    have h := copyAt_fit (((((((MagicNumber ++ FromUint32 c) ++ [0]) ++
        [0, 0]) ++ [v]) ++ name) ++ List.replicate (12 - name.length) 0) ++
        FromUint32 dl) (List.replicate 4 0) (FromUint32 ck) 28
      (by simp [MagicNumber, l4c, l4dl]; omega) (by rw [l4ck]; simp)
    rw [h, l4ck]
    simp [List.drop_replicate]
  unfold buildHeader
  simp only []
  rw [e1, e2, e3, e4, e5, e6, e7]

/-- `indexOf` over an append whose first part misses the key. -/
theorem indexOf_append_of_not_mem (a : Bytes) (x : Nat) (h : ¬ x ∈ a)
    (b : Bytes) : (a ++ b).indexOf x = a.length + b.indexOf x := by
  induction a with
  | nil => simp
  | cons y t ih =>
    simp only [List.mem_cons, not_or] at h
    have hyx : (y == x) = false := by simp [h.1, Ne.symm]
    simp only [List.cons_append, List.indexOf_cons, hyx, List.length_cons]
    rw [ih h.2]
    simp [Nat.add_comm, Nat.add_assoc]

/-- Decoding the NUL-padded 12-byte name field recovers the name, for any
NUL-free name of at most 12 bytes. -/
theorem msgName_decode (name : Bytes) (hlen : name.length ≤ 12)
    (h0 : ¬ 0 ∈ name) :
    (if (name ++ List.replicate (12 - name.length) 0).contains 0 then
        (name ++ List.replicate (12 - name.length) 0).take
          ((name ++ List.replicate (12 - name.length) 0).indexOf 0)
      else name ++ List.replicate (12 - name.length) 0) = name := by
  by_cases h12 : name.length = 12
  · have hrep : (12 : Nat) - name.length = 0 := by omega
    rw [hrep]
    have hcont : (name ++ List.replicate 0 (0 : Nat)).contains 0 = false := by
      simpa using h0
    simp [hcont]
    exact fun hx => absurd hx h0
  · have hpos : 0 < 12 - name.length := by omega
    have hrep : List.replicate (12 - name.length) (0 : Nat) =
        0 :: List.replicate (12 - name.length - 1) 0 := by
      cases hk : 12 - name.length with
      | zero => omega
      | succ m => simp [List.replicate_succ]
    have hcont : (name ++ List.replicate (12 - name.length) 0).contains 0 =
        true := by
      rw [hrep]
      simp
    have hidx : (name ++ List.replicate (12 - name.length) 0).indexOf 0 =
        name.length := by
      rw [indexOf_append_of_not_mem name 0 h0, hrep]
      simp [List.indexOf_cons]
    rw [if_pos hcont, hidx, List.take_left]

/-- `UintBE` inverts the 4-byte big-endian encoding modulo `2^32`. -/
theorem uintBE_beBytes4 (n : Nat) : UintBE (beBytes 4 n) = n % 2 ^ 32 := by
  simp [beBytes, UintBE, List.range_succ]
  omega

/-- `parseHeaderFields` on a frame header built by `buildHeader` (name of at
most 12 NUL-free bytes) recovers every field. -/
theorem parseHeaderFields_eval (c : Nat) (name : Bytes) (v dl ck hck : Nat)
    (hname : name.length ≤ 12) (h0 : ¬ 0 ∈ name) :
    parseHeaderFields (buildHeader c name v dl ck [0] ++ FromUint32 hck) =
      { magicNumber := MagicNumber,
        chainID := FromUint32 c,
        version := v,
        msgName := name,
        dataLength := FromUint32 dl,
        dataChecksum := FromUint32 ck,
        headerChecksum := FromUint32 hck,
        dataHeader := buildHeader c name v dl ck [0],
        data := [],
        reserved := [0, 0, 0] } := by
  have hnorm := buildHeader_norm c name v dl ck hname
  set header := buildHeader c name v dl ck [0] ++ FromUint32 hck with hh
  have hm32 : (buildHeader c name v dl ck [0]).length = 32 := by
    rw [hnorm]
    simp [MagicNumber, beBytes_length, FromUint32]
    omega
  have hflat : header = MagicNumber ++ (FromUint32 c ++ ([0] ++ ([0, 0] ++
      ([v] ++ (name ++ (List.replicate (12 - name.length) 0 ++
      (FromUint32 dl ++ (FromUint32 ck ++ FromUint32 hck)))))))) := by
    rw [hh, hnorm]
    simp [List.append_assoc]
  have d4 : header.drop 4 = FromUint32 c ++ ([0] ++ ([0, 0] ++ ([v] ++
      (name ++ (List.replicate (12 - name.length) 0 ++ (FromUint32 dl ++
      (FromUint32 ck ++ FromUint32 hck))))))) := by
    rw [hflat]
    exact List.drop_left' (by decide)
  have d8 : header.drop 8 = [0] ++ ([0, 0] ++ ([v] ++ (name ++
      (List.replicate (12 - name.length) 0 ++ (FromUint32 dl ++
      (FromUint32 ck ++ FromUint32 hck)))))) := by
    have hsplit : header.drop 8 = (header.drop 4).drop 4 := by
      simp [List.drop_drop]
    rw [hsplit, d4]
    exact List.drop_left' (beBytes_length 4 c)
  have d11 : header.drop 11 = [v] ++ (name ++ (List.replicate
      (12 - name.length) 0 ++ (FromUint32 dl ++ (FromUint32 ck ++
      FromUint32 hck)))) := by
    have hsplit : header.drop 11 = (header.drop 8).drop 3 := by
      simp [List.drop_drop]
    rw [hsplit, d8]
    simp
  have d12 : header.drop 12 = name ++ (List.replicate (12 - name.length) 0 ++
      (FromUint32 dl ++ (FromUint32 ck ++ FromUint32 hck))) := by
    have hsplit : header.drop 12 = (header.drop 11).drop 1 := by
      simp [List.drop_drop]
    rw [hsplit, d11]
    simp
  have d24 : header.drop 24 = FromUint32 dl ++ (FromUint32 ck ++
      FromUint32 hck) := by
    have hsplit : header.drop 24 = (header.drop 12).drop 12 := by
      simp [List.drop_drop]
    rw [hsplit, d12, ← List.append_assoc]
    exact List.drop_left' (by simp [beBytes_length]; omega)
  have d28 : header.drop 28 = FromUint32 ck ++ FromUint32 hck := by
    have hsplit : header.drop 28 = (header.drop 24).drop 4 := by
      simp [List.drop_drop]
    rw [hsplit, d24]
    exact List.drop_left' (beBytes_length 4 dl)
  have d32 : header.drop 32 = FromUint32 hck := by
    have hsplit : header.drop 32 = (header.drop 28).drop 4 := by
      simp [List.drop_drop]
    rw [hsplit, d28]
    exact List.drop_left' (beBytes_length 4 ck)
  have fmagic : header.take 4 = MagicNumber := by
    rw [hflat]
    exact List.take_left' (by decide)
  have fchain : (header.drop 4).take 4 = FromUint32 c := by
    rw [d4]
    exact List.take_left' (beBytes_length 4 c)
  have fres : (header.drop 8).take 3 = [0, 0, 0] := by
    rw [d8]
    simp
  have fver : header.getD 11 0 = v := by
    have hget : header.getD 11 0 = (header.drop 11).getD 0 0 := by
      simp [List.getD, List.getElem?_drop]
    rw [hget, d11]
    simp
  have fname : (header.drop 12).take 12 = name ++ List.replicate
      (12 - name.length) 0 := by
    rw [d12, ← List.append_assoc]
    exact List.take_left' (by simp; omega)
  have fdl : (header.drop 24).take 4 = FromUint32 dl := by
    rw [d24]
    exact List.take_left' (beBytes_length 4 dl)
  have fck : (header.drop 28).take 4 = FromUint32 ck := by
    rw [d28]
    exact List.take_left' (beBytes_length 4 ck)
  have fhck : (header.drop 32).take 4 = FromUint32 hck := by
    rw [d32]
    exact List.take_of_length_le (le_of_eq (beBytes_length 4 hck))
  have fdh : header.take 32 = buildHeader c name v dl ck [0] := by
    rw [hh]
    exact List.take_left' hm32
  unfold parseHeaderFields
  simp only []
  rw [fmagic, fchain, fres, fver, fname, fdl, fck, fhck, fdh,
    msgName_decode name hname h0]

/-- `UintBE` inverts `FromUint32` modulo `2^32`. -/
theorem uintBE_FromUint32 (n : Nat) : UintBE (FromUint32 n) = n % 2 ^ 32 :=
  uintBE_beBytes4 n

/-- Evaluate `parse` on a frame whose 36-byte header was built by
`buildData` for payload `D`, but whose transmitted payload may differ:
parsing succeeds exactly when the transmitted payload's CRC32 equals the
header's data checksum, and otherwise fails with the data-checksum
mismatch. -/
theorem parse_eval (ns : NodeState) (name D payload rest : Bytes)
    (hname : name.length ≤ 12) (h0 : ¬ 0 ∈ name)
    (hchain : ns.chainID < 2 ^ 32) (hD : D.length < 2 ^ 32)
    (hpl : payload.length = D.length) :
    parse ns ((buildData ns D name).take 36 ++ payload ++ rest) =
      if ChecksumIEEE payload = ChecksumIEEE D then
        Except.ok
          { magicNumber := MagicNumber,
            chainID := FromUint32 ns.chainID,
            version := ns.version,
            msgName := name,
            dataLength := FromUint32 (D.length % 2 ^ 32),
            dataChecksum := FromUint32 (ChecksumIEEE D),
            headerChecksum := FromUint32 (ChecksumIEEE (buildHeader
              ns.chainID name ns.version (D.length % 2 ^ 32)
              (ChecksumIEEE D) [0])),
            dataHeader := buildHeader ns.chainID name ns.version
              (D.length % 2 ^ 32) (ChecksumIEEE D) [0],
            data := payload,
            reserved := [0, 0, 0] }
      else Except.error ParseErr.dataChecksumMismatch := by
  have hm32 : (buildHeader ns.chainID name ns.version (D.length % 2 ^ 32)
      (ChecksumIEEE D) [0]).length = 32 := by
    rw [buildHeader_norm ns.chainID name ns.version (D.length % 2 ^ 32)
      (ChecksumIEEE D) hname]
    simp [MagicNumber, beBytes_length, FromUint32]
    omega
  have h36 : (buildHeader ns.chainID name ns.version (D.length % 2 ^ 32)
      (ChecksumIEEE D) [0] ++ FromUint32 (ChecksumIEEE (buildHeader
      ns.chainID name ns.version (D.length % 2 ^ 32) (ChecksumIEEE D)
      [0]))).length = 36 := by
    rw [List.length_append, hm32]
    simp [FromUint32, beBytes_length]
  have hb36 : (buildData ns D name).take 36 =
      buildHeader ns.chainID name ns.version (D.length % 2 ^ 32)
        (ChecksumIEEE D) [0] ++ FromUint32 (ChecksumIEEE (buildHeader
        ns.chainID name ns.version (D.length % 2 ^ 32) (ChecksumIEEE D)
        [0])) := by
    unfold buildData
    simp only []
    exact List.take_left' h36
  rw [hb36]
  unfold parse
  rw [List.append_assoc]
  have hrb1 : ReadBytes ((buildHeader ns.chainID name ns.version
      (D.length % 2 ^ 32) (ChecksumIEEE D) [0] ++ FromUint32 (ChecksumIEEE
      (buildHeader ns.chainID name ns.version (D.length % 2 ^ 32)
      (ChecksumIEEE D) [0]))) ++ (payload ++ rest)) 36 =
      some (buildHeader ns.chainID name ns.version (D.length % 2 ^ 32)
        (ChecksumIEEE D) [0] ++ FromUint32 (ChecksumIEEE (buildHeader
        ns.chainID name ns.version (D.length % 2 ^ 32) (ChecksumIEEE D)
        [0])), payload ++ rest) := by
    unfold ReadBytes
    rw [if_neg (by rw [List.length_append, h36]; omega),
      List.take_left' h36, List.drop_left' h36]
  rw [hrb1]
  simp only []
  rw [parseHeaderFields_eval ns.chainID name ns.version (D.length % 2 ^ 32)
    (ChecksumIEEE D) (ChecksumIEEE (buildHeader ns.chainID name ns.version
    (D.length % 2 ^ 32) (ChecksumIEEE D) [0])) hname h0]
  have hv : verifyHeader ns
      { magicNumber := MagicNumber,
        chainID := FromUint32 ns.chainID,
        version := ns.version,
        msgName := name,
        dataLength := FromUint32 (D.length % 2 ^ 32),
        dataChecksum := FromUint32 (ChecksumIEEE D),
        headerChecksum := FromUint32 (ChecksumIEEE (buildHeader ns.chainID
          name ns.version (D.length % 2 ^ 32) (ChecksumIEEE D) [0])),
        dataHeader := buildHeader ns.chainID name ns.version
          (D.length % 2 ^ 32) (ChecksumIEEE D) [0],
        data := [],
        reserved := [0, 0, 0] } = true := by
    unfold verifyHeader
    simp [uintBE_FromUint32]
    constructor
    · omega
    · have hc := checksumIEEE_lt (buildHeader ns.chainID name ns.version
        (D.length % 4294967296) (ChecksumIEEE D) [0])
      omega
  rw [hv]
  simp only [if_true]
  have hlen2 : UintBE (FromUint32 (D.length % 2 ^ 32)) = payload.length := by
    rw [uintBE_FromUint32,
      Nat.mod_eq_of_lt (Nat.mod_lt _ (by decide)),
      Nat.mod_eq_of_lt hD, hpl]
  have hrb2 : ReadBytes (payload ++ rest)
      (UintBE (FromUint32 (D.length % 2 ^ 32))) = some (payload, rest) := by
    rw [hlen2]
    unfold ReadBytes
    rw [if_neg (by simp), List.take_left, List.drop_left]
  rw [hrb2]
  simp only []
  rw [uintBE_FromUint32, Nat.mod_eq_of_lt (checksumIEEE_lt D)]

/-- C6: a frame built by `buildData` (header carrying the big-endian
CRC32-IEEE data checksum and header checksum) parses successfully on a node
with the same chain id and version, recovering the same message name and
payload; and the same frame with any single payload byte replaced by a
different byte fails to parse with the data-checksum mismatch. -/
theorem buildData_parse_roundtrip (ns : NodeState)
    (name D pre suf rest : Bytes) (b b2 : Nat) (hname : name.length ≤ 12)
    (h0 : ¬ 0 ∈ name) (hchain : ns.chainID < 2 ^ 32)
    (hD : D.length < 2 ^ 32) (hsplit : D = pre ++ b :: suf) (hb : b < 256)
    (hb2 : b2 < 256) (hne : b ≠ b2) :
    (∃ p, parse ns (buildData ns D name ++ rest) = Except.ok p ∧
      p.msgName = name ∧ p.data = D) ∧
    parse ns ((buildData ns D name).take 36 ++ (pre ++ b2 :: suf) ++ rest) =
      Except.error ParseErr.dataChecksumMismatch := by
  have hm32 : (buildHeader ns.chainID name ns.version (D.length % 2 ^ 32)
      (ChecksumIEEE D) [0]).length = 32 := by
    rw [buildHeader_norm ns.chainID name ns.version (D.length % 2 ^ 32)
      (ChecksumIEEE D) hname]
    simp [MagicNumber, beBytes_length, FromUint32]
    omega
  have h36 : (buildHeader ns.chainID name ns.version (D.length % 2 ^ 32)
      (ChecksumIEEE D) [0] ++ FromUint32 (ChecksumIEEE (buildHeader
      ns.chainID name ns.version (D.length % 2 ^ 32) (ChecksumIEEE D)
      [0]))).length = 36 := by
    rw [List.length_append, hm32]
    simp [FromUint32, beBytes_length]
  have hdrop : (buildData ns D name).drop 36 = D := by
    unfold buildData
    simp only []
    exact List.drop_left' h36
  have hframe : buildData ns D name ++ rest =
      (buildData ns D name).take 36 ++ D ++ rest := by
    conv_lhs => rw [← List.take_append_drop 36 (buildData ns D name)]
    rw [hdrop, List.append_assoc]
  constructor
  · rw [hframe, parse_eval ns name D D rest hname h0 hchain hD rfl,
      if_pos rfl]
    exact ⟨_, rfl, rfl, rfl⟩
  · have hlen : (pre ++ b2 :: suf).length = D.length := by
      rw [hsplit]
      simp
    rw [parse_eval ns name D (pre ++ b2 :: suf) rest hname h0 hchain hD hlen]
    rw [if_neg]
    rw [hsplit]
    exact checksumIEEE_single_byte pre suf b2 b hb2 hb (Ne.symm hne)

/-- C6 witness: the concrete `"ok"` frame with payload `[1, 2, 3]` round
trips on the fixture node, and replacing payload byte `1` by `9` fails with
the data-checksum mismatch. -/
theorem buildData_parse_roundtrip_witness :
    (([111, 107] : Bytes).length ≤ 12 ∧ ¬ 0 ∈ ([111, 107] : Bytes) ∧
     nsA.chainID < 2 ^ 32 ∧ ([1, 2, 3] : Bytes).length < 2 ^ 32 ∧
     ([1, 2, 3] : Bytes) = [] ++ 1 :: [2, 3] ∧ (1 : Nat) < 256 ∧
     (9 : Nat) < 256 ∧ (1 : Nat) ≠ 9) ∧
    ((∃ p, parse nsA (buildData nsA [1, 2, 3] [111, 107] ++ [4]) =
        Except.ok p ∧ p.msgName = [111, 107] ∧ p.data = [1, 2, 3]) ∧
     parse nsA ((buildData nsA [1, 2, 3] [111, 107]).take 36 ++
        ([] ++ 9 :: [2, 3]) ++ [4]) =
       Except.error ParseErr.dataChecksumMismatch) :=
  ⟨by decide,
   buildData_parse_roundtrip nsA [111, 107] [1, 2, 3] [] [2, 3] [4] 1 9
     (by decide) (by decide) (by decide) (by decide) (by decide) (by decide)
     (by decide) (by decide)⟩
